import Mathlib

/-!
# Floyd: a shallow embedding of the Raft request handlers

The definitions below embed, function by function, the parts of
`floyd/src/floyd_context.cc`, `floyd/src/floyd_impl.cc` and
`floyd/src/floyd_primary_thread.cc` that decide how a node answers
`RequestVote` and `AppendEntries`, what the ticks of the primary thread do,
how the client commands `Write`, `Delete` and `Read` are routed and executed,
and what `DirtyWrite` and `DirtyRead` do.  Mutable C++ objects become explicit values that are
passed in and returned.  Unsigned 64-bit quantities are natural numbers;
the only arithmetic that can wrap (`current_term++`, the election deadline)
is reduced modulo `2^64` explicitly.

`RaftLog` and `RaftMeta` (the log store and the metadata cells) are used by
the handlers but their implementation is not among the embedded sources;
they are modelled from the written specification and marked as such.
What the collaborators outside the node do during a call (the outcome of a
store write or lookup, the returns of the timed wait, the answer to a command
sent to another node) is an argument of the function that makes the call.
-/

namespace Floyd

/-- Modulus of `uint64_t` arithmetic. -/
def UINT64_MOD : Nat := 18446744073709551616

/-- Node roles (`Role::kFollower`, `Role::kCandidate`, `Role::kLeader`). -/
inductive Role where
  | kFollower
  | kCandidate
  | kLeader
  deriving DecidableEq, Repr

/-- Operation carried by a log entry (`Entry_OpType_*`). -/
inductive OpType where
  | kRead
  | kWrite
  | kDelete
  deriving DecidableEq, Repr

/-- A log entry as the handlers see it: the fields `BuildLogEntry` fills in.
The index of an entry is its position in the log. -/
structure Entry where
  term : Nat
  optype : OpType
  key : String
  value : String
  deriving DecidableEq, Repr

/-- The configuration fields read by the embedded code. -/
structure Options where
  local_ip : String
  local_port : Int
  members : List String
  single_mode : Bool
  check_leader_us : Nat
  heartbeat_us : Nat
  deriving DecidableEq, Repr

/-! ## RaftLog (modelled from the specification) -/

/-- Modelled from the spec: the log store `RaftLog`, whose implementation is
not among the embedded sources.  Indices start at 1 and are dense, so the
store is the list of its entries, entry `i` at position `i - 1`. -/
abbrev RaftLog := List Entry

/-- Modelled from the spec: the implicit sentinel entry at index 0, with
term 0 (a default-constructed `Entry`). -/
def RaftLog.sentinel : Entry :=
  { term := 0, optype := OpType.kRead, key := "", value := "" }

/-- Modelled from the spec: `RaftLog::GetLastLogIndex`, the index of the last
entry, 0 when the log is empty. -/
def RaftLog.GetLastLogIndex (log : RaftLog) : Nat :=
  log.length

/-- Modelled from the spec: `RaftLog::GetEntry(index)`, a point lookup that
yields the entry or not-found; index 0 is the implicit sentinel. -/
def RaftLog.GetEntry (log : RaftLog) (index : Nat) : Option Entry :=
  if index = 0 then some RaftLog.sentinel else log[index - 1]?

/-- Modelled from the spec: `RaftLog::GetLastLogTermAndIndex`, which returns
`(0, 0)` when the log is empty. -/
def RaftLog.GetLastLogTermAndIndex (log : RaftLog) : Nat × Nat :=
  match log.getLast? with
  | none => (0, 0)
  | some e => (e.term, log.length)

/-- Modelled from the spec: `RaftLog::TruncateSuffix(from_index)`, which
deletes all entries with index at least `from_index`. -/
def RaftLog.TruncateSuffix (log : RaftLog) (from_index : Nat) : RaftLog :=
  log.take (from_index - 1)

/-- Modelled from the spec: `RaftLog::Append(entries)`, which atomically
appends the slice at the tail and returns the index of the last appended
entry.  `store_ok` is the outcome of the underlying ordered-store write: when
it fails nothing is appended and the non-positive value 0 is returned. -/
def RaftLog.Append (store_ok : Bool) (log : RaftLog) (entries : List Entry) :
    RaftLog × Nat :=
  if store_ok then (log ++ entries, (log ++ entries).length) else (log, 0)

/-! ## RaftMeta (modelled from the specification) -/

/-- Modelled from the spec: the metadata store `RaftMeta`, four independent
persistent cells with typed getters and setters. -/
structure RaftMeta where
  current_term : Nat
  voted_for_ip : String
  voted_for_port : Int
  commit_index : Nat
  deriving DecidableEq, Repr

/-- Modelled from the spec: `RaftMeta::SetCurrentTerm`. -/
def RaftMeta.SetCurrentTerm (m : RaftMeta) (term : Nat) : RaftMeta :=
  { m with current_term := term }

/-- Modelled from the spec: `RaftMeta::SetVotedForIp`. -/
def RaftMeta.SetVotedForIp (m : RaftMeta) (ip : String) : RaftMeta :=
  { m with voted_for_ip := ip }

/-- Modelled from the spec: `RaftMeta::SetVotedForPort`. -/
def RaftMeta.SetVotedForPort (m : RaftMeta) (port : Int) : RaftMeta :=
  { m with voted_for_port := port }

/-- Modelled from the spec: `RaftMeta::SetCommitIndex`. -/
def RaftMeta.SetCommitIndex (m : RaftMeta) (commit_index : Nat) : RaftMeta :=
  { m with commit_index := commit_index }

/-! ## FloydContext (`floyd_context.cc`) -/

/-- The in-memory Raft state of one node. -/
structure FloydContext where
  options : Options
  current_term : Nat
  role : Role
  voted_for_ip : String
  voted_for_port : Int
  leader_ip : String
  leader_port : Int
  vote_quorum : Nat
  commit_index : Nat
  last_applied : Nat
  last_op_time : Nat
  deriving DecidableEq, Repr

/-- `FloydContext::RecoverInit`: load term, vote and commit index from the
metadata store and start as a follower. -/
def FloydContext.RecoverInit (c : FloydContext) (raft_meta : RaftMeta) : FloydContext :=
  { c with
    current_term := raft_meta.current_term
    voted_for_ip := raft_meta.voted_for_ip
    voted_for_port := raft_meta.voted_for_port
    commit_index := raft_meta.commit_index
    role := Role.kFollower }

/-- `FloydContext::HasLeader`. -/
def FloydContext.HasLeader (c : FloydContext) : Bool :=
  if c.leader_ip = "" ∨ c.leader_port = 0 then false else true

/-- `FloydContext::BecomeFollower`. -/
def FloydContext.BecomeFollower (c : FloydContext) (new_term : Nat)
    (_leader_ip : String) (_leader_port : Int) : FloydContext :=
  { c with
    current_term := new_term
    voted_for_ip := ""
    voted_for_port := 0
    leader_ip := _leader_ip
    leader_port := _leader_port
    role := Role.kFollower }

/-- `FloydContext::BecomeCandidate`; `current_term++` wraps at `2^64`. -/
def FloydContext.BecomeCandidate (c : FloydContext) : FloydContext :=
  { c with
    current_term := (c.current_term + 1) % UINT64_MOD
    role := Role.kCandidate
    leader_ip := ""
    leader_port := 0
    voted_for_ip := c.options.local_ip
    voted_for_port := c.options.local_port
    vote_quorum := 1 }

/-- `FloydContext::BecomeLeader`. -/
def FloydContext.BecomeLeader (c : FloydContext) : FloydContext :=
  { c with
    role := Role.kLeader
    leader_ip := c.options.local_ip
    leader_port := c.options.local_port }

/-- `FloydContext::GrantVote`. -/
def FloydContext.GrantVote (c : FloydContext) (term : Nat) (ip : String) (port : Int) :
    FloydContext :=
  { c with
    voted_for_ip := ip
    voted_for_port := port
    current_term := term }

/-! ## The vote ledger `vote_for_` -/

/-- The member `vote_for_` of `FloydImpl`: a map from term to the `(ip, port)`
the vote of that term went to, kept as an association list with one pair per
key. -/
abbrev VoteLedger := List (Nat × (String × Int))

/-- Lookup, `vote_for_.find(term)`: `none` stands for `vote_for_.end()`. -/
def VoteLedger.find (m : VoteLedger) (term : Nat) : Option (String × Int) :=
  match m with
  | [] => none
  | (k, v) :: rest => if k = term then some v else VoteLedger.find rest term

/-- Assignment, `vote_for_[term] = node`: overwrite the pair of an existing
key, insert otherwise. -/
def VoteLedger.set (m : VoteLedger) (term : Nat) (node : String × Int) : VoteLedger :=
  match m with
  | [] => [(term, node)]
  | (k, v) :: rest =>
    if k = term then (k, node) :: rest else (k, v) :: VoteLedger.set rest term node

/-! ## Requests and responses -/

/-- The `RequestVote` request (`CmdRequest_RequestVote`). -/
structure RequestVote where
  ip : String
  port : Int
  term : Nat
  last_log_term : Nat
  last_log_index : Nat
  deriving DecidableEq, Repr

/-- The `RequestVote` response built by `BuildRequestVoteResponse`. -/
structure RequestVoteResponse where
  term : Nat
  vote_granted : Bool
  deriving DecidableEq, Repr

/-- The `AppendEntries` request (`CmdRequest_AppendEntries`). -/
structure AppendEntries where
  ip : String
  port : Int
  term : Nat
  prev_log_index : Nat
  prev_log_term : Nat
  leader_commit : Nat
  entries : List Entry
  deriving DecidableEq, Repr

/-- The `AppendEntries` response built by `BuildAppendEntriesResponse`. -/
structure AppendEntriesResponse where
  term : Nat
  success : Bool
  last_log_index : Nat
  deriving DecidableEq, Repr

/-- `BuildRequestVoteResponse(term, granted, response)`. -/
def BuildRequestVoteResponse (term : Nat) (granted : Bool) : RequestVoteResponse :=
  { term := term, vote_granted := granted }

/-- `BuildAppendEntriesResponse(succ, term, log_index, response)`. -/
def BuildAppendEntriesResponse (succ : Bool) (term : Nat) (log_index : Nat) :
    AppendEntriesResponse :=
  { term := term, success := succ, last_log_index := log_index }

/-! ## FloydImpl (`floyd_impl.cc`) -/

/-- The state of one node that the two handlers read and write. -/
structure FloydImpl where
  context : FloydContext
  raft_meta : RaftMeta
  raft_log : RaftLog
  vote_for : VoteLedger
  deriving DecidableEq, Repr

/-- `FloydImpl::ReplyRequestVote`: the new node state and the response.  The
handler calls `BecomeFollower(request_vote.term())` with one argument; the two
leader arguments take their defaults, the empty address and port 0. -/
def FloydImpl.ReplyRequestVote (s : FloydImpl) (request_vote : RequestVote) :
    FloydImpl × RequestVoteResponse :=
  let granted := false
  if request_vote.term < s.context.current_term then
    (s, BuildRequestVoteResponse s.context.current_term granted)
  else
    let my_last_log_term := s.raft_log.GetLastLogTermAndIndex.1
    let my_last_log_index := s.raft_log.GetLastLogTermAndIndex.2
    if request_vote.last_log_term < my_last_log_term ∨
        (request_vote.last_log_term = my_last_log_term ∧
          request_vote.last_log_index < my_last_log_index) then
      (s, BuildRequestVoteResponse s.context.current_term granted)
    else if (s.vote_for.find request_vote.term).isSome = true ∧
        s.vote_for.find request_vote.term ≠ some (request_vote.ip, request_vote.port) then
      (s, BuildRequestVoteResponse s.context.current_term granted)
    else
      let vote_for := s.vote_for.set request_vote.term (request_vote.ip, request_vote.port)
      let ctx1 := s.context.BecomeFollower request_vote.term "" 0
      let meta1 := s.raft_meta.SetCurrentTerm ctx1.current_term
      let meta2 := meta1.SetVotedForIp ctx1.voted_for_ip
      let meta3 := meta2.SetVotedForPort ctx1.voted_for_port
      let ctx2 := ctx1.GrantVote request_vote.term request_vote.ip request_vote.port
      let granted := true
      ({ s with context := ctx2, raft_meta := meta3, vote_for := vote_for },
        BuildRequestVoteResponse ctx2.current_term granted)

/-- `FloydImpl::AdvanceFollowerCommitIndex`. -/
def FloydImpl.AdvanceFollowerCommitIndex (s : FloydImpl) (new_commit_index : Nat) :
    FloydImpl :=
  { s with
    context := { s.context with commit_index := new_commit_index }
    raft_meta := s.raft_meta.SetCommitIndex new_commit_index }

/-- What one call of `ReplyAppendEntries` leaves behind: the node state, the
response (`none` when the handler returns without building one) and whether
`ScheduleApply` was called. -/
structure AppendEntriesResult where
  state : FloydImpl
  response : Option AppendEntriesResponse
  apply_scheduled : Bool
  deriving DecidableEq, Repr

/-- The tail of `ReplyAppendEntries`, from the test of `success` on. -/
def FloydImpl.finishAppendEntries (s : FloydImpl) (append_entries : AppendEntries)
    (success : Bool) : AppendEntriesResult :=
  let s1 := if success then s.AdvanceFollowerCommitIndex append_entries.leader_commit else s
  { state := s1
    response := some (BuildAppendEntriesResponse success s1.context.current_term
      s1.raft_log.GetLastLogIndex)
    apply_scheduled := success }

/-- Lines 623-629 of `ReplyAppendEntries`: a request of a higher term makes
the node a follower of the sender and persists term and vote. -/
def FloydImpl.adoptAppendEntriesTerm (s : FloydImpl) (append_entries : AppendEntries) :
    FloydImpl :=
  if append_entries.term > s.context.current_term then
    let ctx := s.context.BecomeFollower append_entries.term append_entries.ip
      append_entries.port
    let meta1 := s.raft_meta.SetCurrentTerm ctx.current_term
    let meta2 := meta1.SetVotedForIp ctx.voted_for_ip
    let meta3 := meta2.SetVotedForPort ctx.voted_for_port
    { s with context := ctx, raft_meta := meta3 }
  else s

/-- Lines 656-668 of `ReplyAppendEntries`: the two truncations.  The log is
cut at `prev_log_index` when the term of the local entry there differs from
`prev_log_term`, and then cut after `prev_log_index` when that index is below
`last_log_index`, the value read at the start of the handler. -/
def RaftLog.truncateBeforeAppend (log : RaftLog) (append_entries : AppendEntries)
    (last_log_index my_log_term : Nat) : RaftLog :=
  let log1 :=
    if append_entries.prev_log_term ≠ my_log_term then
      log.TruncateSuffix append_entries.prev_log_index
    else log
  if append_entries.prev_log_index < last_log_index then
    log1.TruncateSuffix (append_entries.prev_log_index + 1)
  else log1

/-- Lines 656-685 of `ReplyAppendEntries`: the log part, run once the local
entry at `prev_log_index` has been fetched and its term is `my_log_term`. -/
def FloydImpl.storeAppendEntries (store_ok : Bool) (s : FloydImpl)
    (append_entries : AppendEntries) (last_log_index my_log_term : Nat) (success : Bool) :
    AppendEntriesResult :=
  let log2 := s.raft_log.truncateBeforeAppend append_entries last_log_index my_log_term
  if append_entries.entries.length > 0 then
    let appended := log2.Append store_ok append_entries.entries
    if appended.2 ≤ 0 then
      { state := { s with raft_log := appended.1 }
        response := none
        apply_scheduled := false }
    else
      FloydImpl.finishAppendEntries { s with raft_log := appended.1 } append_entries success
  else
    FloydImpl.finishAppendEntries { s with raft_log := log2 } append_entries success

/-- `FloydImpl::ReplyAppendEntries`.  `store_ok` is the outcome of the log
store write performed by `raft_log_->Append`. -/
def FloydImpl.ReplyAppendEntries (store_ok : Bool) (s : FloydImpl)
    (append_entries : AppendEntries) : AppendEntriesResult :=
  let success := false
  let last_log_index := s.raft_log.GetLastLogIndex
  if append_entries.term < s.context.current_term then
    { state := s
      response := some (BuildAppendEntriesResponse success s.context.current_term last_log_index)
      apply_scheduled := false }
  else
    let s1 := s.adoptAppendEntriesTerm append_entries
    if append_entries.prev_log_index > last_log_index then
      { state := s1
        response := some (BuildAppendEntriesResponse success s1.context.current_term
          last_log_index)
        apply_scheduled := false }
    else
      match s1.raft_log.GetEntry append_entries.prev_log_index with
      | none =>
        { state := s1
          response := some (BuildAppendEntriesResponse success s1.context.current_term
            last_log_index)
          apply_scheduled := false }
      | some entry =>
        s1.storeAppendEntries store_ok append_entries last_log_index entry.term success

/-! ## FloydPrimary (`floyd_primary_thread.cc`) -/

/-- Task kinds of the primary thread (`TaskType`). -/
inductive TaskType where
  | kHeartBeat
  | kCheckLeader
  | kNewCommand
  deriving DecidableEq, Repr

/-- The two tasks a peer thread accepts: `AddRequestVoteTask` and
`AddAppendEntriesTask`. -/
inductive PeerTask where
  | RequestVoteTask
  | AppendEntriesTask
  deriving DecidableEq, Repr

/-- `FloydPrimary::NoticePeerTask`: the task put on the queue of each peer,
in the order of the peer set. -/
def FloydPrimary.NoticePeerTask (peers : List String) (type : TaskType) :
    List (String × PeerTask) :=
  peers.filterMap fun peer =>
    match type with
    | TaskType.kHeartBeat => some (peer, PeerTask.RequestVoteTask)
    | TaskType.kNewCommand => some (peer, PeerTask.AppendEntriesTask)
    | TaskType.kCheckLeader => none

/-- What one tick of the primary thread leaves behind: the context, the
tasks put on peer queues and the timer tasks re-armed through `AddTask`. -/
structure PrimaryResult where
  context : FloydContext
  peer_tasks : List (String × PeerTask)
  added_tasks : List TaskType
  deriving DecidableEq, Repr

/-- `FloydPrimary::LaunchCheckLeader`.  `now` is `slash::NowMicros()`; the sum
`last_op_time + check_leader_us` is a `uint64_t`. -/
def FloydPrimary.LaunchCheckLeader (options_ : Options) (peers : List String) (now : Nat)
    (context_ : FloydContext) : PrimaryResult :=
  let r : FloydContext × List (String × PeerTask) :=
    if context_.role = Role.kFollower ∨ context_.role = Role.kCandidate then
      if options_.single_mode then
        (context_.BecomeLeader, [])
      else if (context_.last_op_time + options_.check_leader_us) % UINT64_MOD < now then
        (context_.BecomeCandidate, FloydPrimary.NoticePeerTask peers TaskType.kHeartBeat)
      else (context_, [])
    else (context_, [])
  { context := r.1, peer_tasks := r.2, added_tasks := [TaskType.kCheckLeader] }

/-- `FloydPrimary::LaunchHeartBeat`. -/
def FloydPrimary.LaunchHeartBeat (peers : List String) (context_ : FloydContext) :
    PrimaryResult :=
  if context_.role = Role.kLeader then
    { context := context_
      peer_tasks := FloydPrimary.NoticePeerTask peers TaskType.kHeartBeat
      added_tasks := [TaskType.kHeartBeat] }
  else
    { context := context_, peer_tasks := [], added_tasks := [] }

/-! ## Client commands (`floyd_impl.cc`) -/

/-- The kinds of `slash::Status` the embedded code returns or passes on. -/
inductive Status where
  | OK
  | NotFound
  | Corruption
  | IOError
  | Incomplete
  | Timeout
  deriving DecidableEq, Repr

/-- `Status::ok()`. -/
def Status.ok (st : Status) : Bool :=
  decide (st = Status.OK)

/-- Command types of the wire protocol (`Type::k*`). -/
inductive CmdType where
  | kRead
  | kWrite
  | kDirtyWrite
  | kDelete
  | kRequestVote
  | kAppendEntries
  | kServerStatus
  deriving DecidableEq, Repr

/-- Response codes of the wire protocol (`StatusCode::k*`). -/
inductive StatusCode where
  | kOk
  | kNotFound
  | kError
  deriving DecidableEq, Repr

/-- A client command: its type and the key and value of its `kv` part. -/
structure CmdRequest where
  type : CmdType
  key : String
  value : String
  deriving DecidableEq, Repr

/-- A command response: its type, its code and the value of its `kv` part. -/
structure CmdResponse where
  type : CmdType
  code : StatusCode
  value : String
  deriving DecidableEq, Repr

/-- A response object on which nothing has been set yet.  No embedded code
path reads a field of it before setting it. -/
def CmdResponse.empty : CmdResponse :=
  { type := CmdType.kRead, code := StatusCode.kOk, value := "" }

/-- The answer of the key-value store to a point lookup (`db_->Get`). -/
inductive GetResult where
  | found (value : String)
  | notFound
  | failed
  deriving DecidableEq, Repr

/-- What the collaborators of a client call do while it runs: whether the log
store write succeeds, the successive returns of `apply_cond.TimedWait(1000)`
each with the value of `last_applied` seen after it, the answer of the
key-value store to a lookup, and the outcome of `SendAndRecv` for an address
and a command. -/
structure ClientEnv where
  store_ok : Bool
  wakeups : List (Bool × Nat)
  db_get : String → GetResult
  send_and_recv : String → CmdRequest → Status × CmdResponse

/-- What one client call leaves behind: the status it returns, the value
written to the output parameter of `Read` if any, the node state, the response
object, the tasks given to the primary thread through `AddTask` and the
commands sent to other nodes, each with the address it went to. -/
structure ClientResult where
  status : Status
  value : Option String
  state : FloydImpl
  response : CmdResponse
  added_tasks : List TaskType
  rpcs : List (String × CmdRequest)
  deriving DecidableEq, Repr

/-- `slash::IpPortString(ip, port)`, the address `ip:port`. -/
def IpPortString (ip : String) (port : Int) : String :=
  ip ++ ":" ++ toString port

/-- `BuildReadRequest`. -/
def BuildReadRequest (key : String) : CmdRequest :=
  { type := CmdType.kRead, key := key, value := "" }

/-- `BuildWriteRequest`. -/
def BuildWriteRequest (key value : String) : CmdRequest :=
  { type := CmdType.kWrite, key := key, value := value }

/-- `BuildDirtyWriteRequest`. -/
def BuildDirtyWriteRequest (key value : String) : CmdRequest :=
  { type := CmdType.kDirtyWrite, key := key, value := value }

/-- `BuildDeleteRequest`. -/
def BuildDeleteRequest (key : String) : CmdRequest :=
  { type := CmdType.kDelete, key := key, value := "" }

/-- `BuildReadResponse`: set the code, and the value when the code is
`kOk`. -/
def BuildReadResponse (value : String) (code : StatusCode) (response : CmdResponse) :
    CmdResponse :=
  if code = StatusCode.kOk then { response with code := code, value := value }
  else { response with code := code }

/-- `BuildLogEntry`: term, key and value are copied; the operation follows the
command type, and stays at the default of a fresh entry for the other types. -/
def BuildLogEntry (cmd : CmdRequest) (current_term : Nat) : Entry :=
  { term := current_term
    key := cmd.key
    value := cmd.value
    optype :=
      if cmd.type = CmdType.kRead then OpType.kRead
      else if cmd.type = CmdType.kWrite ∨ cmd.type = CmdType.kDirtyWrite then OpType.kWrite
      else if cmd.type = CmdType.kDelete then OpType.kDelete
      else RaftLog.sentinel.optype }

/-- The wait loop of `ExecuteCommand`:
`while (last_applied < last_log_index) if (!TimedWait(1000)) return Timeout`.
Each element of `wakeups` is one return of `TimedWait` with the value of
`last_applied` seen after it.  The result is `some (true, n)` when the loop
ends with `last_applied = n`, `some (false, n)` when a wait times out, and
`none` when the list of returns is used up while the loop still waits. -/
def waitApplied (last_log_index : Nat) (last_applied : Nat) :
    List (Bool × Nat) → Option (Bool × Nat)
  | [] => if last_applied < last_log_index then none else some (true, last_applied)
  | (signalled, seen) :: rest =>
    if last_applied < last_log_index then
      if signalled then waitApplied last_log_index seen rest else some (false, last_applied)
    else some (true, last_applied)

/-- `FloydImpl::ExecuteCommand`, run on the leader.  The result is `none` only
when the wait loop has not ended within the wake-ups the environment
provides. -/
def FloydImpl.ExecuteCommand (env : ClientEnv) (s : FloydImpl) (request : CmdRequest)
    (response : CmdResponse) : Option ClientResult :=
  let entry := BuildLogEntry request s.context.current_term
  let appended := s.raft_log.Append env.store_ok [entry]
  let last_log_index := appended.2
  let s1 : FloydImpl := { s with raft_log := appended.1 }
  if last_log_index ≤ 0 then
    some { status := Status.IOError, value := none, state := s1, response := response,
           added_tasks := [], rpcs := [] }
  else
    let added_tasks := [TaskType.kNewCommand]
    let response1 : CmdResponse :=
      { response with type := request.type, code := StatusCode.kError }
    match waitApplied last_log_index s1.context.last_applied env.wakeups with
    | none => none
    | some (false, seen) =>
      some { status := Status.Timeout, value := none
             state := { s1 with context := { s1.context with last_applied := seen } }
             response := response1, added_tasks := added_tasks, rpcs := [] }
    | some (true, seen) =>
      let s2 : FloydImpl := { s1 with context := { s1.context with last_applied := seen } }
      match request.type with
      | CmdType.kWrite =>
        some { status := Status.OK, value := none, state := s2
               response := { response1 with code := StatusCode.kOk }
               added_tasks := added_tasks, rpcs := [] }
      | CmdType.kDelete =>
        some { status := Status.OK, value := none, state := s2
               response := { response1 with code := StatusCode.kOk }
               added_tasks := added_tasks, rpcs := [] }
      | CmdType.kRead =>
        let response2 :=
          match env.db_get request.key with
          | GetResult.found value => BuildReadResponse value StatusCode.kOk response1
          | GetResult.notFound => BuildReadResponse "" StatusCode.kNotFound response1
          | GetResult.failed => BuildReadResponse "" StatusCode.kError response1
        some { status := Status.OK, value := none, state := s2, response := response2
               added_tasks := added_tasks, rpcs := [] }
      | _ =>
        some { status := Status.Corruption, value := none, state := s2, response := response1
               added_tasks := added_tasks, rpcs := [] }

/-- `FloydImpl::DoCommand`: execute when this node is the leader, otherwise
send the command to the leader. -/
def FloydImpl.DoCommand (env : ClientEnv) (s : FloydImpl) (cmd : CmdRequest)
    (response : CmdResponse) : Option ClientResult :=
  let leader_ip := s.context.leader_ip
  let leader_port := s.context.leader_port
  if s.context.options.local_ip = leader_ip ∧ s.context.options.local_port = leader_port then
    s.ExecuteCommand env cmd response
  else
    let address := IpPortString leader_ip leader_port
    let answer := env.send_and_recv address cmd
    some { status := answer.1, value := none, state := s, response := answer.2
           added_tasks := [], rpcs := [(address, cmd)] }

/-- The result of a client call that returns before doing anything. -/
def ClientResult.refused (s : FloydImpl) (status : Status) : ClientResult :=
  { status := status, value := none, state := s, response := CmdResponse.empty
    added_tasks := [], rpcs := [] }

/-- `FloydImpl::Write`. -/
def FloydImpl.Write (env : ClientEnv) (s : FloydImpl) (key value : String) :
    Option ClientResult :=
  if s.context.HasLeader = false then
    some (ClientResult.refused s Status.Incomplete)
  else
    let cmd := BuildWriteRequest key value
    match s.DoCommand env cmd CmdResponse.empty with
    | none => none
    | some r =>
      if r.status.ok = false then some r
      else if r.response.code = StatusCode.kOk then some { r with status := Status.OK }
      else some { r with status := Status.Corruption }

/-- `FloydImpl::Delete`. -/
def FloydImpl.Delete (env : ClientEnv) (s : FloydImpl) (key : String) :
    Option ClientResult :=
  if s.context.HasLeader = false then
    some (ClientResult.refused s Status.Incomplete)
  else
    let cmd := BuildDeleteRequest key
    match s.DoCommand env cmd CmdResponse.empty with
    | none => none
    | some r =>
      if r.status.ok = false then some r
      else if r.response.code = StatusCode.kOk then some { r with status := Status.OK }
      else some { r with status := Status.Corruption }

/-- `FloydImpl::Read`. -/
def FloydImpl.Read (env : ClientEnv) (s : FloydImpl) (key : String) :
    Option ClientResult :=
  if s.context.HasLeader = false then
    some (ClientResult.refused s Status.Incomplete)
  else
    let cmd := BuildReadRequest key
    match s.DoCommand env cmd CmdResponse.empty with
    | none => none
    | some r =>
      if r.status.ok = false then some r
      else if r.response.code = StatusCode.kOk then
        some { r with status := Status.OK, value := some r.response.value }
      else if r.response.code = StatusCode.kNotFound then
        some { r with status := Status.NotFound }
      else some { r with status := Status.Corruption }

/-! ## Dirty commands (`floyd_impl.cc`) -/

/-- The content of the key-value store `db_`, an external engine with point
get and put: the pairs it holds, one per key. -/
abbrev KvStore := List (String × String)

/-- The value the store holds for a key, if any. -/
def KvStore.lookup (db : KvStore) (key : String) : Option String :=
  match db with
  | [] => none
  | (k, v) :: rest => if k = key then some v else KvStore.lookup rest key

/-- The store with `key` mapped to `value`: the pair of an existing key is
overwritten, a new key is added. -/
def KvStore.insert (db : KvStore) (key value : String) : KvStore :=
  match db with
  | [] => [(key, value)]
  | (k, v) :: rest =>
    if k = key then (k, value) :: rest else (k, v) :: KvStore.insert rest key value

/-- `db_->Put(key, value)`: the new content and whether the returned status is
ok.  `put_ok` is the outcome of the write in the engine; a failed write leaves
the content as it was. -/
def KvStore.Put (put_ok : Bool) (db : KvStore) (key value : String) : KvStore × Bool :=
  if put_ok then (db.insert key value, true) else (db, false)

/-- `db_->Get(key, &value)`: the value, not-found, or a failure of the engine.
`get_ok` says whether the engine could do the lookup. -/
def KvStore.Get (get_ok : Bool) (db : KvStore) (key : String) : GetResult :=
  if get_ok then
    match db.lookup key with
    | some value => GetResult.found value
    | none => GetResult.notFound
  else GetResult.failed

/-- What a dirty command leaves behind: the status it returns, the value
written to the output parameter of `DirtyRead` if any, the content of the
key-value store and the commands sent to other nodes, each with the address it
went to. -/
structure DirtyResult where
  status : Status
  value : Option String
  db : KvStore
  rpcs : List (String × CmdRequest)
  deriving DecidableEq, Repr

/-- The loop of `DirtyWrite` over `options_.members`: the command is sent to
every member whose address differs from `local_server`; the status of each
send is only logged.  The result is the list of sends, in order, and the
response object as the last send left it. -/
def FloydImpl.sendDirtyWrites (env : ClientEnv) (local_server : String) (cmd : CmdRequest) :
    List String → CmdResponse → List (String × CmdRequest) × CmdResponse
  | [], response => ([], response)
  | iter :: rest, response =>
    if iter ≠ local_server then
      let answer := env.send_and_recv iter cmd
      let tail := FloydImpl.sendDirtyWrites env local_server cmd rest answer.2
      ((iter, cmd) :: tail.1, tail.2)
    else FloydImpl.sendDirtyWrites env local_server cmd rest response

/-- `FloydImpl::DirtyWrite`. -/
def FloydImpl.DirtyWrite (env : ClientEnv) (put_ok : Bool) (s : FloydImpl) (db : KvStore)
    (key value : String) : DirtyResult :=
  let rs := db.Put put_ok key value
  if rs.2 = false then
    { status := Status.IOError, value := none, db := rs.1, rpcs := [] }
  else
    let cmd := BuildDirtyWriteRequest key value
    let local_server := IpPortString s.context.options.local_ip s.context.options.local_port
    let sent := FloydImpl.sendDirtyWrites env local_server cmd s.context.options.members
      CmdResponse.empty
    { status := Status.OK, value := none, db := rs.1, rpcs := sent.1 }

/-- `FloydImpl::DirtyRead`. -/
def FloydImpl.DirtyRead (get_ok : Bool) (db : KvStore) (key : String) : DirtyResult :=
  match db.Get get_ok key with
  | GetResult.found value =>
    { status := Status.OK, value := some value, db := db, rpcs := [] }
  | GetResult.notFound =>
    { status := Status.NotFound, value := none, db := db, rpcs := [] }
  | GetResult.failed =>
    { status := Status.Corruption, value := none, db := db, rpcs := [] }

/-! ## Sequences of steps on one node -/

/-- Handle a list of `RequestVote` requests in order; the final state and the
responses, in order. -/
def FloydImpl.replyRequestVotes (s : FloydImpl) :
    List RequestVote → FloydImpl × List RequestVoteResponse
  | [] => (s, [])
  | r :: rest =>
    let step := s.ReplyRequestVote r
    let tail := FloydImpl.replyRequestVotes step.1 rest
    (tail.1, step.2 :: tail.2)

/-- The check-leader tick seen from the node: `LaunchCheckLeader` run on the
context of the node with the options of the node. -/
def FloydImpl.LaunchCheckLeader (s : FloydImpl) (peers : List String) (now : Nat) :
    FloydImpl :=
  { s with
    context := (FloydPrimary.LaunchCheckLeader s.context.options peers now s.context).context }

/-- The state of a node when `Init` has run: a context that `RecoverInit`
loaded from the metadata store, the stores as found, and an empty vote
ledger.  `c` is the context as its constructor leaves it. -/
def FloydImpl.init (c : FloydContext) (raft_meta : RaftMeta) (raft_log : RaftLog) :
    FloydImpl :=
  { context := c.RecoverInit raft_meta
    raft_meta := raft_meta
    raft_log := raft_log
    vote_for := [] }

/-- The steps that change the context of a node: the two request handlers, the
check-leader tick and `BecomeLeader`. -/
inductive NodeStep where
  | replyRequestVote (request_vote : RequestVote)
  | replyAppendEntries (store_ok : Bool) (append_entries : AppendEntries)
  | launchCheckLeader (options_ : Options) (peers : List String) (now : Nat)
  | becomeLeader

/-- One step on a node. -/
def FloydImpl.step (s : FloydImpl) : NodeStep → FloydImpl
  | NodeStep.replyRequestVote request_vote => (s.ReplyRequestVote request_vote).1
  | NodeStep.replyAppendEntries store_ok append_entries =>
    (s.ReplyAppendEntries store_ok append_entries).state
  | NodeStep.launchCheckLeader options_ peers now =>
    { s with context := (FloydPrimary.LaunchCheckLeader options_ peers now s.context).context }
  | NodeStep.becomeLeader => { s with context := s.context.BecomeLeader }

/-- A sequence of steps on a node, in order. -/
def FloydImpl.run (s : FloydImpl) : List NodeStep → FloydImpl
  | [] => s
  | st :: rest => FloydImpl.run (s.step st) rest

/-- The consistency of role, leader and vote in a context: a leader has itself
as leader, and a candidate has voted for itself and knows no leader. -/
def FloydContext.roleConsistent (c : FloydContext) : Prop :=
  (c.role = Role.kLeader →
    c.leader_ip = c.options.local_ip ∧ c.leader_port = c.options.local_port) ∧
  (c.role = Role.kCandidate →
    c.voted_for_ip = c.options.local_ip ∧ c.voted_for_port = c.options.local_port ∧
    c.leader_ip = "" ∧ c.leader_port = 0)

/-! ## Sample values used to evaluate the handlers -/

/-- Options of a node `127.0.0.1:8901` in a cluster of three. -/
def sampleOptions : Options :=
  { local_ip := "127.0.0.1"
    local_port := 8901
    members := ["127.0.0.1:8901", "127.0.0.2:8902", "127.0.0.3:8903"]
    single_mode := false
    check_leader_us := 1000
    heartbeat_us := 100 }

/-- The peers of the sample node: the members other than itself. -/
def samplePeers : List String := ["127.0.0.2:8902", "127.0.0.3:8903"]

/-- A follower context in term `term` with commit index `commit_index`, no
leader and no vote. -/
def sampleContext (term commit_index : Nat) : FloydContext :=
  { options := sampleOptions
    current_term := term
    role := Role.kFollower
    voted_for_ip := ""
    voted_for_port := 0
    leader_ip := ""
    leader_port := 0
    vote_quorum := 0
    commit_index := commit_index
    last_applied := 0
    last_op_time := 0 }

/-- A follower in term `term` with the given log and commit index, an empty
vote ledger, and a metadata store that agrees with the context. -/
def sampleNode (term commit_index : Nat) (log : RaftLog) : FloydImpl :=
  { context := sampleContext term commit_index
    raft_meta := { current_term := term, voted_for_ip := "", voted_for_port := 0,
                   commit_index := commit_index }
    raft_log := log
    vote_for := [] }

/-- Write of `a = 1`, created in term 1. -/
def entryA : Entry := { term := 1, optype := OpType.kWrite, key := "a", value := "1" }

/-- Write of `b = 2`, created in term 1. -/
def entryB : Entry := { term := 1, optype := OpType.kWrite, key := "b", value := "2" }

/-- Write of `c = 3`, created in term 2. -/
def entryC : Entry := { term := 2, optype := OpType.kWrite, key := "c", value := "3" }

/-- An AppendEntries request sent by `127.0.0.2:8902`. -/
def sampleAppend (term prev_log_index prev_log_term leader_commit : Nat)
    (entries : List Entry) : AppendEntries :=
  { ip := "127.0.0.2"
    port := 8902
    term := term
    prev_log_index := prev_log_index
    prev_log_term := prev_log_term
    leader_commit := leader_commit
    entries := entries }

/-- A RequestVote request of a candidate whose log is empty. -/
def sampleVote (ip : String) (port : Int) (term : Nat) : RequestVote :=
  { ip := ip, port := port, term := term, last_log_term := 0, last_log_index := 0 }

/-- The sample node, a follower in term 6 with an empty log whose last
operation dates from time 0, after the check-leader tick at time 5000: the
election deadline `0 + 1000` has passed. -/
def sampleCandidate : FloydImpl :=
  (sampleNode 6 0 []).LaunchCheckLeader samplePeers 5000

/-- The sample node with log `[entryA]`, a follower in term 1, after the
check-leader tick at time 5000: a candidate of term 2 whose last log entry is
`(1, 1)`. -/
def sampleLoggedCandidate : FloydImpl :=
  (sampleNode 1 0 [entryA]).LaunchCheckLeader samplePeers 5000

/-- The context of the sample node as leader of term 3. -/
def sampleLeaderContext : FloydContext :=
  (sampleContext 3 0).BecomeLeader

/-- The sample options with the largest election timeout a `uint64_t` holds. -/
def sampleOptionsMaxTimeout : Options :=
  { sampleOptions with check_leader_us := 18446744073709551615 }

/-- A follower context of term `term` whose last operation dates from time
`last_op_time`. -/
def sampleContextAt (term last_op_time : Nat) : FloydContext :=
  { sampleContext term 0 with last_op_time := last_op_time }

/-- An environment in which the log store write succeeds, the key-value store
holds nothing, no wake-up arrives and every command sent to another node is
answered `OK`. -/
def sampleEnv : ClientEnv :=
  { store_ok := true
    wakeups := []
    db_get := fun _ => GetResult.notFound
    send_and_recv := fun _ _ => (Status.OK, CmdResponse.empty) }

/-- The sample node as leader of term 3 with log `[entryA]`. -/
def sampleLeader : FloydImpl :=
  { sampleNode 3 0 [entryA] with context := sampleLeaderContext }

/-- The sample environment with a failing log store write. -/
def sampleEnvStoreFails : ClientEnv :=
  { sampleEnv with store_ok := false }

/-- The sample environment with the given returns of the timed wait. -/
def sampleEnvWakeups (wakeups : List (Bool × Nat)) : ClientEnv :=
  { sampleEnv with wakeups := wakeups }

/-! ## Properties of `ReplyAppendEntries`: the reply -/

/-- The term check of `ReplyAppendEntries` leaves the log alone. -/
theorem adoptAppendEntriesTerm_raft_log (s : FloydImpl) (ae : AppendEntries) :
    (s.adoptAppendEntriesTerm ae).raft_log = s.raft_log := by
  unfold FloydImpl.adoptAppendEntriesTerm
  split_ifs <;> rfl

/-- The term check of `ReplyAppendEntries` leaves the commit index alone. -/
theorem adoptAppendEntriesTerm_commit_index (s : FloydImpl) (ae : AppendEntries) :
    (s.adoptAppendEntriesTerm ae).context.commit_index = s.context.commit_index := by
  unfold FloydImpl.adoptAppendEntriesTerm
  split_ifs <;> rfl

/-- The tail of the handler answers with the flag it is given. -/
theorem finishAppendEntries_success (s : FloydImpl) (ae : AppendEntries) (success : Bool)
    (r : AppendEntriesResponse) (h : (s.finishAppendEntries ae success).response = some r) :
    r.success = success := by
  unfold FloydImpl.finishAppendEntries at h
  cases h
  rfl

/-- The log part of the handler answers, when it answers, with the flag it is
given. -/
theorem storeAppendEntries_success (store_ok : Bool) (s : FloydImpl) (ae : AppendEntries)
    (last my_term : Nat) (success : Bool) (r : AppendEntriesResponse)
    (h : (s.storeAppendEntries store_ok ae last my_term success).response = some r) :
    r.success = success := by
  unfold FloydImpl.storeAppendEntries at h
  dsimp only at h
  split_ifs at h
  · exact finishAppendEntries_success _ _ _ _ h
  · exact finishAppendEntries_success _ _ _ _ h

/-- Every response built by `ReplyAppendEntries` carries `success = false`:
the local `success` is initialised to `false` and never assigned. -/
theorem ReplyAppendEntries_success_false (store_ok : Bool) (s : FloydImpl)
    (ae : AppendEntries) (r : AppendEntriesResponse)
    (h : (s.ReplyAppendEntries store_ok ae).response = some r) : r.success = false := by
  unfold FloydImpl.ReplyAppendEntries at h
  simp only [BuildAppendEntriesResponse] at h
  split_ifs at h
  · cases h; rfl
  · cases h; rfl
  · split at h
    · cases h; rfl
    · exact storeAppendEntries_success _ _ _ _ _ _ _ h

/-- C1 (evaluation at a failing input): a follower in term 1 whose log is
`[entryA]` gets an AppendEntries of term 1 with `prev_log_index = 1`,
`prev_log_term = 1` and one entry; the request term is not behind, the
previous index is within the log, the local entry at the previous index has
the requested term and the log write succeeds, yet the reply carries
`success = false`. -/
theorem ReplyAppendEntries_happy_path_reports_failure :
    (sampleAppend 1 1 1 1 [entryB]).term ≥ (sampleNode 1 0 [entryA]).context.current_term ∧
    (sampleAppend 1 1 1 1 [entryB]).prev_log_index ≤
      (sampleNode 1 0 [entryA]).raft_log.GetLastLogIndex ∧
    ((sampleNode 1 0 [entryA]).raft_log.GetEntry 1).map Entry.term = some 1 ∧
    ((sampleNode 1 0 [entryA]).ReplyAppendEntries true
      (sampleAppend 1 1 1 1 [entryB])).state.raft_log = [entryA, entryB] ∧
    ((sampleNode 1 0 [entryA]).ReplyAppendEntries true
      (sampleAppend 1 1 1 1 [entryB])).response =
        some (BuildAppendEntriesResponse false 1 2) := by
  decide

/-! ## Properties of `ReplyRequestVote` -/

/-- C2: `ReplyRequestVote` grants the vote exactly when the request term is
not behind the current term, the candidate log is at least as up to date as
the local one (greater last term, or equal last term and last index not
smaller), and the vote ledger has no entry for the request term or its entry
is the requesting candidate. -/
theorem ReplyRequestVote_granted_iff (s : FloydImpl) (req : RequestVote) :
    (s.ReplyRequestVote req).2.vote_granted = true ↔
      (req.term ≥ s.context.current_term ∧
        (req.last_log_term > s.raft_log.GetLastLogTermAndIndex.1 ∨
          (req.last_log_term = s.raft_log.GetLastLogTermAndIndex.1 ∧
            req.last_log_index ≥ s.raft_log.GetLastLogTermAndIndex.2)) ∧
        (s.vote_for.find req.term = none ∨
          s.vote_for.find req.term = some (req.ip, req.port))) := by
  unfold FloydImpl.ReplyRequestVote
  simp only [BuildRequestVoteResponse]
  split_ifs with h1 h2 h3
  · simp; omega
  · simp; omega
  · simp only [Bool.false_eq_true, false_iff]
    rintro ⟨-, -, h | h⟩
    · rw [h] at h3; simp at h3
    · exact h3.2 h
  · simp only [true_iff]
    refine ⟨by omega, by omega, ?_⟩
    cases hf : s.vote_for.find req.term with
    | none => exact Or.inl rfl
    | some v =>
      right
      by_contra hne
      exact h3 ⟨by simp [hf], by rw [hf]; exact hne⟩

/-! ## The vote ledger across calls of `ReplyRequestVote` -/

/-- Reading the ledger after an assignment. -/
theorem VoteLedger.find_set (m : VoteLedger) (t t' : Nat) (v : String × Int) :
    (m.set t v).find t' = if t = t' then some v else m.find t' := by
  induction m with
  | nil => simp [VoteLedger.set, VoteLedger.find]
  | cons kv rest ih =>
    obtain ⟨k, x⟩ := kv
    by_cases hk : k = t
    · subst hk
      by_cases ht : k = t' <;> simp [VoteLedger.set, VoteLedger.find, ht]
    · by_cases ht : t = t'
      · subst ht
        simp [VoteLedger.set, VoteLedger.find, hk, ih]
      · have ht' : ¬ t' = t := fun e => ht e.symm
        by_cases hk' : k = t' <;> simp [VoteLedger.set, VoteLedger.find, hk, hk', ht, ht', ih]

/-- The response of a denied request: the node is untouched and the reply
carries the current term. -/
theorem ReplyRequestVote_denied (s : FloydImpl) (r : RequestVote)
    (h : (s.ReplyRequestVote r).2.vote_granted = false) :
    (s.ReplyRequestVote r).1 = s ∧ (s.ReplyRequestVote r).2.term = s.context.current_term := by
  unfold FloydImpl.ReplyRequestVote at h ⊢
  simp only [BuildRequestVoteResponse] at h ⊢
  split_ifs at h ⊢ <;> simp_all

/-- One call of `ReplyRequestVote` never changes an entry the ledger already
holds. -/
theorem ReplyRequestVote_ledger_kept (s : FloydImpl) (r : RequestVote) (t : Nat)
    (c : String × Int) (h : s.vote_for.find t = some c) :
    (s.ReplyRequestVote r).1.vote_for.find t = some c := by
  unfold FloydImpl.ReplyRequestVote
  simp only [BuildRequestVoteResponse]
  split_ifs with h1 h2 h3
  · exact h
  · exact h
  · exact h
  · show (s.vote_for.set r.term (r.ip, r.port)).find t = some c
    rw [VoteLedger.find_set]
    split_ifs with ht
    · subst ht
      by_contra hne
      exact h3 ⟨by simp [h], by rw [h]; exact fun e => hne e.symm⟩
    · exact h

/-- A granted request is recorded in the ledger under its term. -/
theorem ReplyRequestVote_granted_recorded (s : FloydImpl) (r : RequestVote)
    (h : (s.ReplyRequestVote r).2.vote_granted = true) :
    (s.ReplyRequestVote r).1.vote_for.find r.term = some (r.ip, r.port) := by
  unfold FloydImpl.ReplyRequestVote at h ⊢
  simp only [BuildRequestVoteResponse] at h ⊢
  split_ifs at h ⊢
  show (s.vote_for.set r.term (r.ip, r.port)).find r.term = some (r.ip, r.port)
  rw [VoteLedger.find_set]
  simp

/-- A request for a term whose ledger entry names somebody else is denied,
and the reply carries the current term. -/
theorem ReplyRequestVote_other_denied (s : FloydImpl) (r : RequestVote) (c : String × Int)
    (h : s.vote_for.find r.term = some c) (hne : (r.ip, r.port) ≠ c) :
    (s.ReplyRequestVote r).2.vote_granted = false ∧
      (s.ReplyRequestVote r).2.term = s.context.current_term := by
  unfold FloydImpl.ReplyRequestVote
  simp only [BuildRequestVoteResponse]
  split_ifs with h1 h2 h3
  · exact ⟨rfl, rfl⟩
  · exact ⟨rfl, rfl⟩
  · exact ⟨rfl, rfl⟩
  · exfalso
    exact h3 ⟨by simp [h], by rw [h]; exact fun e => hne (Option.some.inj e).symm⟩

/-- A sequence of `ReplyRequestVote` calls never changes an entry the ledger
already holds. -/
theorem replyRequestVotes_ledger_kept (reqs : List RequestVote) (s : FloydImpl) (t : Nat)
    (c : String × Int) (h : s.vote_for.find t = some c) :
    (s.replyRequestVotes reqs).1.vote_for.find t = some c := by
  induction reqs generalizing s with
  | nil => exact h
  | cons r rest ih =>
    show ((s.ReplyRequestVote r).1.replyRequestVotes rest).1.vote_for.find t = some c
    exact ih _ (ReplyRequestVote_ledger_kept s r t c h)

/-- C3: vote uniqueness of the ledger.  Take any node state (the empty ledger
included), handle the requests `before`, then `r1`, then the requests
`between`, then `r2`.  (1) Every entry the ledger holds before `r1` is still
there, unchanged, after `r1`, before `r2` and after `r2`.  (2) If `r1` and
`r2` are both granted and ask for the same term, they name the same candidate.
(3) If the ledger holds a candidate for the term of `r2` and `r2` comes from a
different candidate, `r2` is answered `vote_granted = false` with the current
term of the node as reply term. -/
theorem vote_ledger_uniqueness (s : FloydImpl) (before between : List RequestVote)
    (r1 r2 : RequestVote) :
    (let p := (s.replyRequestVotes before).1
     let a1 := p.ReplyRequestVote r1
     let q := (a1.1.replyRequestVotes between).1
     let a2 := q.ReplyRequestVote r2
     (∀ t c, p.vote_for.find t = some c →
       a1.1.vote_for.find t = some c ∧ q.vote_for.find t = some c ∧
         a2.1.vote_for.find t = some c) ∧
     (a1.2.vote_granted = true → a2.2.vote_granted = true → r1.term = r2.term →
       (r1.ip, r1.port) = (r2.ip, r2.port)) ∧
     (∀ c, q.vote_for.find r2.term = some c → (r2.ip, r2.port) ≠ c →
       a2.2.vote_granted = false ∧ a2.2.term = q.context.current_term)) := by
  intro p a1 q a2
  refine ⟨?_, ?_, ?_⟩
  · intro t c h
    have h1 : a1.1.vote_for.find t = some c := ReplyRequestVote_ledger_kept p r1 t c h
    have h2 : q.vote_for.find t = some c := replyRequestVotes_ledger_kept between a1.1 t c h1
    exact ⟨h1, h2, ReplyRequestVote_ledger_kept q r2 t c h2⟩
  · intro g1 g2 ht
    have h1 : a1.1.vote_for.find r1.term = some (r1.ip, r1.port) :=
      ReplyRequestVote_granted_recorded p r1 g1
    have h2 : q.vote_for.find r2.term = some (r1.ip, r1.port) := by
      rw [← ht]
      exact replyRequestVotes_ledger_kept between a1.1 _ _ h1
    by_contra hne
    have hd := (ReplyRequestVote_other_denied q r2 _ h2 (fun e => hne e.symm)).1
    rw [hd] at g2
    cases g2
  · intro c h hne
    exact ReplyRequestVote_other_denied q r2 c h hne

/-- C3 witness: node A is in term 7 with an empty ledger.  B asks for the vote
of term 7 and gets it; C then asks for the vote of term 7 and is answered
`vote_granted = false` with reply term 7. -/
theorem vote_ledger_uniqueness_witness :
    (sampleNode 7 0 []).vote_for = [] ∧
    ((sampleNode 7 0 []).ReplyRequestVote (sampleVote "127.0.0.2" 8902 7)).2.vote_granted
      = true ∧
    (((sampleNode 7 0 []).ReplyRequestVote (sampleVote "127.0.0.2" 8902 7)).1.ReplyRequestVote
      (sampleVote "127.0.0.3" 8903 7)).2.vote_granted = false ∧
    (((sampleNode 7 0 []).ReplyRequestVote (sampleVote "127.0.0.2" 8902 7)).1.ReplyRequestVote
      (sampleVote "127.0.0.3" 8903 7)).2.term = 7 := by
  have h := (vote_ledger_uniqueness (sampleNode 7 0 []) [] []
    (sampleVote "127.0.0.2" 8902 7) (sampleVote "127.0.0.3" 8903 7)).2.2
    ("127.0.0.2", 8902) (by decide) (by decide)
  exact ⟨rfl, by decide, h.1, h.2.trans (by decide)⟩

/-! ## One vote per term, self-votes included -/

/-- C4 (evaluation at a failing input): a follower in term 6 whose election
deadline has passed runs the check-leader tick and becomes candidate of term 7
with its vote on itself; a RequestVote of term 7 from `127.0.0.2:8902` is then
granted, and the vote of term 7 moves to that candidate. -/
theorem candidate_grants_second_vote_in_same_term :
    (sampleCandidate.context.role = Role.kCandidate ∧
      sampleCandidate.context.current_term = 7 ∧
      (sampleCandidate.context.voted_for_ip, sampleCandidate.context.voted_for_port) =
        ("127.0.0.1", 8901)) ∧
    (sampleCandidate.ReplyRequestVote (sampleVote "127.0.0.2" 8902 7)).2 =
      BuildRequestVoteResponse 7 true ∧
    (sampleCandidate.ReplyRequestVote (sampleVote "127.0.0.2" 8902 7)).1.context.current_term
      = 7 ∧
    ((sampleCandidate.ReplyRequestVote
        (sampleVote "127.0.0.2" 8902 7)).1.context.voted_for_ip,
      (sampleCandidate.ReplyRequestVote
        (sampleVote "127.0.0.2" 8902 7)).1.context.voted_for_port) = ("127.0.0.2", 8902) := by
  decide

/-! ## The log after `ReplyAppendEntries` -/

/-- When the previous entry matches and lies within the log, the truncation
step keeps exactly the entries up to `prev_log_index`. -/
theorem truncateBeforeAppend_match (log : RaftLog) (ae : AppendEntries) (t : Nat)
    (hm : ae.prev_log_term = t) (hle : ae.prev_log_index ≤ log.length) :
    log.truncateBeforeAppend ae log.length t = log.take ae.prev_log_index := by
  unfold RaftLog.truncateBeforeAppend
  simp only [hm, ne_eq, not_true_eq_false, if_false]
  split_ifs with h
  · simp [RaftLog.TruncateSuffix]
  · have : ae.prev_log_index = log.length := by omega
    rw [this, List.take_length]

/-- When the previous entry does not match, the truncation step keeps exactly
the entries below `prev_log_index`. -/
theorem truncateBeforeAppend_mismatch (log : RaftLog) (ae : AppendEntries) (last t : Nat)
    (hm : ae.prev_log_term ≠ t) :
    log.truncateBeforeAppend ae last t = log.take (ae.prev_log_index - 1) := by
  unfold RaftLog.truncateBeforeAppend
  simp only [hm, ne_eq, not_false_eq_true, if_true]
  split_ifs with h
  · simp [RaftLog.TruncateSuffix, List.take_take]
  · rfl

/-- The tail of the handler does not touch the log. -/
theorem finishAppendEntries_raft_log (s : FloydImpl) (ae : AppendEntries) (success : Bool) :
    (s.finishAppendEntries ae success).state.raft_log = s.raft_log := by
  unfold FloydImpl.finishAppendEntries
  cases success <;> rfl

/-- The log left by the log part of the handler: the truncated log, followed
by the entries of the request when there are some and the store write
succeeds. -/
theorem storeAppendEntries_raft_log (store_ok : Bool) (s : FloydImpl) (ae : AppendEntries)
    (last t : Nat) (success : Bool) :
    (s.storeAppendEntries store_ok ae last t success).state.raft_log =
      if store_ok = true then s.raft_log.truncateBeforeAppend ae last t ++ ae.entries
      else s.raft_log.truncateBeforeAppend ae last t := by
  unfold FloydImpl.storeAppendEntries
  dsimp only
  by_cases hlen : ae.entries.length > 0
  · cases store_ok
    · simp [hlen, RaftLog.Append]
    · have hpos : ¬ ((s.raft_log.truncateBeforeAppend ae last t ++ ae.entries).length ≤ 0) := by
        rw [List.length_append]; omega
      simp only [hlen, RaftLog.Append, if_true, hpos, if_false, finishAppendEntries_raft_log]
  · rw [if_neg hlen, finishAppendEntries_raft_log]
    have hnil : ae.entries = [] := List.length_eq_zero.mp (by omega)
    simp [hnil]

/-- Once the term is not stale, the previous index lies within the log and the
local entry there has been fetched, `ReplyAppendEntries` is the log part run on
the state left by the term check. -/
theorem ReplyAppendEntries_fetched (store_ok : Bool) (s : FloydImpl) (ae : AppendEntries)
    (e : Entry) (hterm : ae.term ≥ s.context.current_term)
    (hprev : ae.prev_log_index ≤ s.raft_log.GetLastLogIndex)
    (hget : s.raft_log.GetEntry ae.prev_log_index = some e) :
    s.ReplyAppendEntries store_ok ae =
      (s.adoptAppendEntriesTerm ae).storeAppendEntries store_ok ae s.raft_log.GetLastLogIndex
        e.term false := by
  unfold FloydImpl.ReplyAppendEntries
  dsimp only
  rw [if_neg (by omega), if_neg (by omega), adoptAppendEntriesTerm_raft_log, hget]

/-- The log after `ReplyAppendEntries`, in every case: unchanged when the
request is rejected before the log is touched, otherwise the truncated log
followed by the entries that were stored. -/
theorem ReplyAppendEntries_raft_log (store_ok : Bool) (s : FloydImpl) (ae : AppendEntries) :
    (s.ReplyAppendEntries store_ok ae).state.raft_log = s.raft_log ∨
      ∃ e, ae.prev_log_index ≤ s.raft_log.GetLastLogIndex ∧
        s.raft_log.GetEntry ae.prev_log_index = some e ∧
        (s.ReplyAppendEntries store_ok ae).state.raft_log =
          if store_ok = true then
            s.raft_log.truncateBeforeAppend ae s.raft_log.GetLastLogIndex e.term ++ ae.entries
          else s.raft_log.truncateBeforeAppend ae s.raft_log.GetLastLogIndex e.term := by
  by_cases hterm : ae.term < s.context.current_term
  · left
    unfold FloydImpl.ReplyAppendEntries
    simp [hterm]
  · by_cases hprev : ae.prev_log_index > s.raft_log.GetLastLogIndex
    · left
      unfold FloydImpl.ReplyAppendEntries
      simp [hterm, hprev, adoptAppendEntriesTerm_raft_log]
    · cases hget : s.raft_log.GetEntry ae.prev_log_index with
      | none =>
        left
        unfold FloydImpl.ReplyAppendEntries
        simp [hterm, hprev, adoptAppendEntriesTerm_raft_log, hget]
      | some e =>
        right
        refine ⟨e, by omega, rfl, ?_⟩
        rw [ReplyAppendEntries_fetched store_ok s ae e (by omega) (by omega) hget,
          storeAppendEntries_raft_log, adoptAppendEntriesTerm_raft_log]

/-- An entry found in a log is found, unchanged, in every extension of it. -/
theorem GetEntry_append (log more : RaftLog) (i : Nat) (e : Entry)
    (h : log.GetEntry i = some e) : RaftLog.GetEntry (log ++ more) i = some e := by
  unfold RaftLog.GetEntry at h ⊢
  split_ifs at h ⊢ with hi
  · exact h
  · have hlt : i - 1 < log.length := by
      by_contra hge
      rw [List.getElem?_eq_none (by omega)] at h
      cases h
    rw [List.getElem?_append_left hlt]
    exact h

/-- An entry found at index `i` is found, unchanged, after the log is cut to
its first `k` entries, as long as `i` is at most `k`. -/
theorem GetEntry_take (log : RaftLog) (i k : Nat) (e : Entry) (hik : i ≤ k)
    (h : log.GetEntry i = some e) : RaftLog.GetEntry (log.take k) i = some e := by
  unfold RaftLog.GetEntry at h ⊢
  split_ifs at h ⊢ with hi
  · exact h
  · rw [List.getElem?_take_of_lt (by omega)]
    exact h

/-- Entries below the previous index of the request, and the entry at the
previous index when its term matches, survive `ReplyAppendEntries` unchanged. -/
theorem ReplyAppendEntries_keeps_lower_entries (store_ok : Bool) (s : FloydImpl)
    (ae : AppendEntries) (i : Nat) (e : Entry)
    (hi : i < ae.prev_log_index ∨
      (i ≤ ae.prev_log_index ∧
        (s.raft_log.GetEntry ae.prev_log_index).map Entry.term = some ae.prev_log_term))
    (he : s.raft_log.GetEntry i = some e) :
    (s.ReplyAppendEntries store_ok ae).state.raft_log.GetEntry i = some e := by
  rcases ReplyAppendEntries_raft_log store_ok s ae with h | ⟨e', hprev, hget, h⟩
  · rw [h]; exact he
  · have hT : RaftLog.GetEntry
        (s.raft_log.truncateBeforeAppend ae s.raft_log.GetLastLogIndex e'.term) i = some e := by
      by_cases hm : ae.prev_log_term = e'.term
      · rw [RaftLog.GetLastLogIndex, truncateBeforeAppend_match _ _ _ hm hprev]
        exact GetEntry_take _ _ _ _ (by omega) he
      · rw [truncateBeforeAppend_mismatch _ _ _ _ hm]
        have hlt : i < ae.prev_log_index := by
          rcases hi with hi | ⟨-, hi⟩
          · exact hi
          · rw [hget] at hi
            simp only [Option.map_some', Option.some.injEq] at hi
            exact absurd hi.symm hm
        by_cases h0 : i = 0
        · subst h0
          unfold RaftLog.GetEntry at he ⊢
          simpa using he
        · exact GetEntry_take _ _ _ _ (by omega) he
    rw [h]
    split_ifs
    · exact GetEntry_append _ _ _ _ hT
    · exact hT

/-! ## Committed entries -/

/-- C5 (counterexample): a follower in term 1 holds `[entryA, entryB]`, both
committed (`commit_index = 2`).  An AppendEntries of term 2 whose previous
entry `(1, 1)` matches and which carries `entryC` replaces the committed entry
at index 2: before the call index 2 holds `entryB`, after it `entryC`. -/
theorem committed_entry_replaced :
    (sampleNode 1 2 [entryA, entryB]).context.commit_index ≤
      (sampleNode 1 2 [entryA, entryB]).raft_log.GetLastLogIndex ∧
    2 ≤ (sampleNode 1 2 [entryA, entryB]).context.commit_index ∧
    (sampleNode 1 2 [entryA, entryB]).raft_log.GetEntry 2 = some entryB ∧
    ((sampleNode 1 2 [entryA, entryB]).ReplyAppendEntries true
      (sampleAppend 2 1 1 2 [entryC])).state.raft_log.GetEntry 2 = some entryC ∧
    ((sampleNode 1 2 [entryA, entryB]).ReplyAppendEntries true
      (sampleAppend 2 1 1 2 [entryC])).state.raft_log.GetEntry 2 ≠ some entryB := by
  decide

/-- C5 (amended): when the commit index lies below the previous index of the
request, or equals it while the local entry there has the requested term,
every entry with index at most `commit_index` that is present before
`ReplyAppendEntries` is present with identical content after it, whatever the
request carries and whether or not the store write succeeds. -/
theorem committed_entries_kept (store_ok : Bool) (s : FloydImpl) (ae : AppendEntries)
    (i : Nat) (e : Entry)
    (hcommit : s.context.commit_index < ae.prev_log_index ∨
      (s.context.commit_index = ae.prev_log_index ∧
        (s.raft_log.GetEntry ae.prev_log_index).map Entry.term = some ae.prev_log_term))
    (hi : i ≤ s.context.commit_index)
    (he : s.raft_log.GetEntry i = some e) :
    (s.ReplyAppendEntries store_ok ae).state.raft_log.GetEntry i = some e := by
  apply ReplyAppendEntries_keeps_lower_entries store_ok s ae i e _ he
  rcases hcommit with h | ⟨h, hm⟩
  · exact Or.inl (by omega)
  · exact Or.inr ⟨by omega, hm⟩

/-- C5 (amended) witness: with `[entryA, entryB]`, `commit_index = 1` and a
request whose matching previous entry is `(1, 1)`, the committed entry at
index 1 is kept while the uncommitted entry at index 2 is replaced. -/
theorem committed_entries_kept_witness :
    (sampleNode 1 1 [entryA, entryB]).raft_log.GetEntry 1 = some entryA ∧
    ((sampleNode 1 1 [entryA, entryB]).ReplyAppendEntries true
      (sampleAppend 2 1 1 1 [entryC])).state.raft_log.GetEntry 1 = some entryA :=
  ⟨by decide,
    committed_entries_kept true (sampleNode 1 1 [entryA, entryB])
      (sampleAppend 2 1 1 1 [entryC]) 1 entryA
      (Or.inr ⟨by decide, by decide⟩) (by decide) (by decide)⟩

/-! ## AppendEntries without entries -/

/-- C6 (counterexample): a follower holds `[entryA, entryB]`; an AppendEntries
of its own term with no entries and matching previous entry `(1, 1)` cuts the
log down to `[entryA]`. -/
theorem heartbeat_truncates_log :
    (sampleAppend 1 1 1 0 []).term ≥ (sampleNode 1 0 [entryA, entryB]).context.current_term ∧
    (sampleAppend 1 1 1 0 []).prev_log_index ≤
      (sampleNode 1 0 [entryA, entryB]).raft_log.GetLastLogIndex ∧
    ((sampleNode 1 0 [entryA, entryB]).raft_log.GetEntry 1).map Entry.term = some 1 ∧
    ((sampleNode 1 0 [entryA, entryB]).ReplyAppendEntries true
      (sampleAppend 1 1 1 0 [])).state.raft_log = [entryA] ∧
    ((sampleNode 1 0 [entryA, entryB]).ReplyAppendEntries true
      (sampleAppend 1 1 1 0 [])).state.raft_log ≠ (sampleNode 1 0 [entryA, entryB]).raft_log := by
  decide

/-- C6 (amended): for a request with no entries, a term that is not stale, a
previous index within the log and a matching term there, `ReplyAppendEntries`
leaves exactly the old entries with index at most `prev_log_index` and appends
nothing: the log is unchanged when `prev_log_index` is the last log index, and
loses the entries after `prev_log_index` when it is smaller. -/
theorem heartbeat_keeps_lower_entries (store_ok : Bool) (s : FloydImpl) (ae : AppendEntries)
    (e : Entry) (hnil : ae.entries = [])
    (hterm : ae.term ≥ s.context.current_term)
    (hprev : ae.prev_log_index ≤ s.raft_log.GetLastLogIndex)
    (hget : s.raft_log.GetEntry ae.prev_log_index = some e)
    (hm : e.term = ae.prev_log_term) :
    (s.ReplyAppendEntries store_ok ae).state.raft_log = s.raft_log.take ae.prev_log_index ∧
    (ae.prev_log_index = s.raft_log.GetLastLogIndex →
      (s.ReplyAppendEntries store_ok ae).state.raft_log = s.raft_log) ∧
    (ae.prev_log_index < s.raft_log.GetLastLogIndex →
      (s.ReplyAppendEntries store_ok ae).state.raft_log.GetLastLogIndex = ae.prev_log_index) := by
  have hlog : (s.ReplyAppendEntries store_ok ae).state.raft_log =
      s.raft_log.take ae.prev_log_index := by
    rw [ReplyAppendEntries_fetched store_ok s ae e hterm hprev hget,
      storeAppendEntries_raft_log, adoptAppendEntriesTerm_raft_log, RaftLog.GetLastLogIndex,
      truncateBeforeAppend_match _ _ _ hm.symm hprev, hnil]
    simp
  refine ⟨hlog, ?_, ?_⟩
  · intro heq
    rw [hlog, heq, RaftLog.GetLastLogIndex, List.take_length]
  · intro hlt
    rw [hlog]
    unfold RaftLog.GetLastLogIndex at hlt ⊢
    rw [List.length_take]
    omega

/-- C6 (amended) witness: with `[entryA, entryB]` and matching previous entry
`(2, 1)`, the last one, the heartbeat leaves the log as it is. -/
theorem heartbeat_keeps_lower_entries_witness :
    ((sampleNode 1 0 [entryA, entryB]).ReplyAppendEntries true
      (sampleAppend 1 2 1 0 [])).state.raft_log = [entryA, entryB] :=
  (heartbeat_keeps_lower_entries true (sampleNode 1 0 [entryA, entryB])
    (sampleAppend 1 2 1 0 []) entryB rfl (by decide) (by decide) (by decide)
    (by decide)).2.1 (by decide)

/-! ## Previous-term mismatch -/

/-- C7 (evaluation at a failing input): a follower in term 2 holds
`[entryA, entryB]`, both of term 1.  An AppendEntries of term 2 with previous
entry `(2, 2)` does not match the local term 1 at index 2.  The handler cuts
the log to `[entryA]` and then stores the entry of the request at index 2; the
reply carries `success = false` and `last_log_index = 2`. -/
theorem mismatch_still_appends :
    (sampleAppend 2 2 2 0 [entryC]).term ≥
      (sampleNode 2 0 [entryA, entryB]).context.current_term ∧
    (sampleAppend 2 2 2 0 [entryC]).prev_log_index ≤
      (sampleNode 2 0 [entryA, entryB]).raft_log.GetLastLogIndex ∧
    ((sampleNode 2 0 [entryA, entryB]).raft_log.GetEntry 2).map Entry.term = some 1 ∧
    (sampleAppend 2 2 2 0 [entryC]).prev_log_term = 2 ∧
    ((sampleNode 2 0 [entryA, entryB]).ReplyAppendEntries true
      (sampleAppend 2 2 2 0 [entryC])).state.raft_log = [entryA, entryC] ∧
    ((sampleNode 2 0 [entryA, entryB]).ReplyAppendEntries true
      (sampleAppend 2 2 2 0 [entryC])).state.raft_log ≠ [entryA] ∧
    ((sampleNode 2 0 [entryA, entryB]).ReplyAppendEntries true
      (sampleAppend 2 2 2 0 [entryC])).response =
        some (BuildAppendEntriesResponse false 2 2) := by
  decide

/-! ## Accepted AppendEntries with entries -/

/-- The reply of the log part of the handler when there are entries to store
and the store write succeeds: it carries the last index of the new log. -/
theorem storeAppendEntries_response (s : FloydImpl) (ae : AppendEntries) (last t : Nat)
    (success : Bool) (hne : ae.entries ≠ []) :
    ∃ r, (s.storeAppendEntries true ae last t success).response = some r ∧
      r.last_log_index = (s.raft_log.truncateBeforeAppend ae last t ++ ae.entries).length := by
  have hlen : ae.entries.length > 0 := List.length_pos.mpr hne
  have hpos : ¬ ((s.raft_log.truncateBeforeAppend ae last t ++ ae.entries).length ≤ 0) := by
    rw [List.length_append]; omega
  unfold FloydImpl.storeAppendEntries
  dsimp only
  rw [if_pos hlen]
  simp only [RaftLog.Append, if_true, hpos, if_false]
  unfold FloydImpl.finishAppendEntries
  cases success <;> exact ⟨_, rfl, rfl⟩

/-- C8 (counterexample): the request has one entry, a term that is not stale
and a matching previous entry `(1, 1)`, but the log store write fails: the
handler returns without a reply and the entry of the request is not in the
log. -/
theorem accepted_entries_lost_on_store_failure :
    (sampleAppend 1 1 1 0 [entryB]).entries ≠ [] ∧
    (sampleAppend 1 1 1 0 [entryB]).term ≥ (sampleNode 1 0 [entryA]).context.current_term ∧
    (sampleAppend 1 1 1 0 [entryB]).prev_log_index ≤
      (sampleNode 1 0 [entryA]).raft_log.GetLastLogIndex ∧
    ((sampleNode 1 0 [entryA]).raft_log.GetEntry 1).map Entry.term = some 1 ∧
    ((sampleNode 1 0 [entryA]).ReplyAppendEntries false
      (sampleAppend 1 1 1 0 [entryB])).state.raft_log = [entryA] ∧
    ((sampleNode 1 0 [entryA]).ReplyAppendEntries false
      (sampleAppend 1 1 1 0 [entryB])).state.raft_log ≠ [entryA] ++ [entryB] ∧
    ((sampleNode 1 0 [entryA]).ReplyAppendEntries false
      (sampleAppend 1 1 1 0 [entryB])).response = none := by
  decide

/-- C8 (amended): when the log store write succeeds, a request with at least
one entry, a term that is not stale, a previous index within the log and a
matching term there leaves the log equal to the old entries with index at most
`prev_log_index` followed by the entries of the request in order, and the reply
carries `last_log_index = prev_log_index + |entries|`, the new last log
index. -/
theorem accepted_entries_installed (s : FloydImpl) (ae : AppendEntries) (e : Entry)
    (hne : ae.entries ≠ [])
    (hterm : ae.term ≥ s.context.current_term)
    (hprev : ae.prev_log_index ≤ s.raft_log.GetLastLogIndex)
    (hget : s.raft_log.GetEntry ae.prev_log_index = some e)
    (hm : e.term = ae.prev_log_term) :
    (s.ReplyAppendEntries true ae).state.raft_log =
      s.raft_log.take ae.prev_log_index ++ ae.entries ∧
    ∃ r, (s.ReplyAppendEntries true ae).response = some r ∧
      r.last_log_index = ae.prev_log_index + ae.entries.length ∧
      r.last_log_index = (s.ReplyAppendEntries true ae).state.raft_log.GetLastLogIndex := by
  have hlog : (s.ReplyAppendEntries true ae).state.raft_log =
      s.raft_log.take ae.prev_log_index ++ ae.entries := by
    rw [ReplyAppendEntries_fetched true s ae e hterm hprev hget,
      storeAppendEntries_raft_log, adoptAppendEntriesTerm_raft_log, RaftLog.GetLastLogIndex,
      truncateBeforeAppend_match _ _ _ hm.symm hprev]
    simp
  have hlen : (s.raft_log.take ae.prev_log_index ++ ae.entries).length =
      ae.prev_log_index + ae.entries.length := by
    unfold RaftLog.GetLastLogIndex at hprev
    rw [List.length_append, List.length_take]
    omega
  refine ⟨hlog, ?_⟩
  obtain ⟨r, hr, hidx⟩ := storeAppendEntries_response (s.adoptAppendEntriesTerm ae) ae
    s.raft_log.GetLastLogIndex e.term false hne
  rw [adoptAppendEntriesTerm_raft_log, RaftLog.GetLastLogIndex,
    truncateBeforeAppend_match _ _ _ hm.symm hprev, hlen] at hidx
  refine ⟨r, ?_, hidx, ?_⟩
  · rw [ReplyAppendEntries_fetched true s ae e hterm hprev hget]
    exact hr
  · rw [hlog, hidx, RaftLog.GetLastLogIndex, hlen]

/-- C8 (amended) witness: `[entryA, entryB]` with matching previous entry
`(1, 1)` and the entry `entryC` becomes `[entryA, entryC]`. -/
theorem accepted_entries_installed_witness :
    ((sampleNode 1 0 [entryA, entryB]).ReplyAppendEntries true
      (sampleAppend 2 1 1 0 [entryC])).state.raft_log = [entryA, entryC] :=
  (accepted_entries_installed (sampleNode 1 0 [entryA, entryB])
    (sampleAppend 2 1 1 0 [entryC]) entryA (by decide) (by decide) (by decide)
    (by decide) (by decide)).1

/-! ## The follower commit index -/

/-- C9 (evaluation at a failing input): a follower in term 1 with log
`[entryA]` and `commit_index = 0` accepts an AppendEntries with matching
previous entry `(1, 1)`, the entry `entryB` and `leader_commit = 2`.  The log
becomes `[entryA, entryB]`, so `min(leader_commit, last_log_index) = 2`, but
the commit index stays 0 in memory and in the metadata store, and no apply
pass is scheduled. -/
theorem accepted_append_leaves_commit_index :
    (sampleAppend 1 1 1 2 [entryB]).term ≥ (sampleNode 1 0 [entryA]).context.current_term ∧
    (sampleAppend 1 1 1 2 [entryB]).prev_log_index ≤
      (sampleNode 1 0 [entryA]).raft_log.GetLastLogIndex ∧
    ((sampleNode 1 0 [entryA]).raft_log.GetEntry 1).map Entry.term = some 1 ∧
    ((sampleNode 1 0 [entryA]).ReplyAppendEntries true
      (sampleAppend 1 1 1 2 [entryB])).state.raft_log = [entryA, entryB] ∧
    min (sampleAppend 1 1 1 2 [entryB]).leader_commit
      ((sampleNode 1 0 [entryA]).ReplyAppendEntries true
        (sampleAppend 1 1 1 2 [entryB])).state.raft_log.GetLastLogIndex = 2 ∧
    ((sampleNode 1 0 [entryA]).ReplyAppendEntries true
      (sampleAppend 1 1 1 2 [entryB])).state.context.commit_index = 0 ∧
    ((sampleNode 1 0 [entryA]).ReplyAppendEntries true
      (sampleAppend 1 1 1 2 [entryB])).state.raft_meta.commit_index = 0 ∧
    ((sampleNode 1 0 [entryA]).ReplyAppendEntries true
      (sampleAppend 1 1 1 2 [entryB])).apply_scheduled = false := by
  decide

/-- The log part of the handler, run with `success = false`, leaves the
context alone. -/
theorem storeAppendEntries_false_context (store_ok : Bool) (s : FloydImpl)
    (ae : AppendEntries) (last t : Nat) :
    (s.storeAppendEntries store_ok ae last t false).state.context = s.context := by
  unfold FloydImpl.storeAppendEntries
  dsimp only
  split_ifs <;> rfl

/-- `ReplyAppendEntries` never changes the in-memory commit index. -/
theorem ReplyAppendEntries_commit_index (store_ok : Bool) (s : FloydImpl)
    (ae : AppendEntries) :
    (s.ReplyAppendEntries store_ok ae).state.context.commit_index = s.context.commit_index := by
  unfold FloydImpl.ReplyAppendEntries
  dsimp only
  split_ifs
  · rfl
  · exact adoptAppendEntriesTerm_commit_index s ae
  · split
    · exact adoptAppendEntriesTerm_commit_index s ae
    · rw [storeAppendEntries_false_context]
      exact adoptAppendEntriesTerm_commit_index s ae

/-- C10 (counterexample): with five entries and `commit_index = 5`,
`AdvanceFollowerCommitIndex(3)` moves the commit index back to 3, in memory
and in the metadata store. -/
theorem advance_commit_index_can_go_back :
    (sampleNode 1 5 [entryA, entryA, entryA, entryA, entryA]).context.commit_index = 5 ∧
    ((sampleNode 1 5 [entryA, entryA, entryA, entryA, entryA]).AdvanceFollowerCommitIndex
      3).context.commit_index = 3 ∧
    ((sampleNode 1 5 [entryA, entryA, entryA, entryA, entryA]).AdvanceFollowerCommitIndex
      3).raft_meta.commit_index = 3 ∧
    ¬ ((sampleNode 1 5 [entryA, entryA, entryA, entryA, entryA]).AdvanceFollowerCommitIndex
      3).context.commit_index ≥
        (sampleNode 1 5 [entryA, entryA, entryA, entryA, entryA]).context.commit_index := by
  decide

/-- C10 (amended): `AdvanceFollowerCommitIndex(n)` sets the commit index to
`n`, in memory and in the metadata store, so it leaves the commit index at or
above its previous value when `n` is at or above it; and every
`ReplyAppendEntries` call leaves the commit index at or above its previous
value. -/
theorem commit_index_follower_path (s : FloydImpl) (n : Nat) (store_ok : Bool)
    (ae : AppendEntries) :
    (s.AdvanceFollowerCommitIndex n).context.commit_index = n ∧
    (s.AdvanceFollowerCommitIndex n).raft_meta.commit_index = n ∧
    (n ≥ s.context.commit_index →
      (s.AdvanceFollowerCommitIndex n).context.commit_index ≥ s.context.commit_index) ∧
    (s.ReplyAppendEntries store_ok ae).state.context.commit_index ≥ s.context.commit_index :=
  ⟨rfl, rfl, fun h => h, by rw [ReplyAppendEntries_commit_index]⟩

/-- C10 (amended) witness: from `commit_index = 1`, advancing to 2 does not
move the commit index back. -/
theorem commit_index_follower_path_witness :
    ((sampleNode 1 1 [entryA, entryB]).AdvanceFollowerCommitIndex 2).context.commit_index ≥
      (sampleNode 1 1 [entryA, entryB]).context.commit_index :=
  (commit_index_follower_path (sampleNode 1 1 [entryA, entryB]) 2 true
    (sampleAppend 1 2 1 2 [])).2.2.1 (by decide)

/-! ## Terms seen in requests -/

/-- C11 (evaluation at a failing input): a candidate of term 2 whose last log
entry is `(1, 1)` gets a RequestVote of term 7 from a candidate with an empty
log.  The request term is above the current term, the vote is denied because
the log of the candidate is behind, and the node is left as it was: still
candidate, still in term 2, with the persisted term still 1. -/
theorem higher_term_vote_denied_without_demotion :
    (sampleVote "127.0.0.2" 8902 7).term > sampleLoggedCandidate.context.current_term ∧
    sampleLoggedCandidate.context.role = Role.kCandidate ∧
    sampleLoggedCandidate.context.current_term = 2 ∧
    (sampleLoggedCandidate.ReplyRequestVote (sampleVote "127.0.0.2" 8902 7)).2 =
      BuildRequestVoteResponse 2 false ∧
    (sampleLoggedCandidate.ReplyRequestVote
      (sampleVote "127.0.0.2" 8902 7)).1.context.current_term = 2 ∧
    (sampleLoggedCandidate.ReplyRequestVote
      (sampleVote "127.0.0.2" 8902 7)).1.context.role = Role.kCandidate ∧
    (sampleLoggedCandidate.ReplyRequestVote
      (sampleVote "127.0.0.2" 8902 7)).1.raft_meta.current_term = 1 := by
  decide

/-- The term after `ReplyRequestVote` is the current term or the request term,
whichever is the greater one in the branch taken. -/
theorem ReplyRequestVote_current_term_ge (s : FloydImpl) (r : RequestVote) :
    (s.ReplyRequestVote r).1.context.current_term ≥ s.context.current_term := by
  unfold FloydImpl.ReplyRequestVote
  simp only [BuildRequestVoteResponse]
  split_ifs with h1 h2 h3
  · exact le_refl _
  · exact le_refl _
  · exact le_refl _
  · show r.term ≥ s.context.current_term
    omega

/-- The context after `ReplyAppendEntries`: untouched for a stale request,
otherwise the one left by the term check. -/
theorem ReplyAppendEntries_context (store_ok : Bool) (s : FloydImpl) (ae : AppendEntries) :
    (s.ReplyAppendEntries store_ok ae).state.context =
      if ae.term < s.context.current_term then s.context
      else (s.adoptAppendEntriesTerm ae).context := by
  unfold FloydImpl.ReplyAppendEntries
  dsimp only
  split_ifs
  · rfl
  · rfl
  · split
    · rfl
    · rw [storeAppendEntries_false_context]

/-- The term check of `ReplyAppendEntries` never lowers the term. -/
theorem adoptAppendEntriesTerm_current_term_ge (s : FloydImpl) (ae : AppendEntries) :
    (s.adoptAppendEntriesTerm ae).context.current_term ≥ s.context.current_term := by
  unfold FloydImpl.adoptAppendEntriesTerm
  split_ifs with h
  · show ae.term ≥ s.context.current_term
    omega
  · exact le_refl _

/-- The term after the check-leader tick is the old term, or the old term plus
one modulo `2^64` when the node becomes candidate. -/
theorem LaunchCheckLeader_current_term (options_ : Options) (peers : List String) (now : Nat)
    (c : FloydContext) :
    (FloydPrimary.LaunchCheckLeader options_ peers now c).context.current_term =
        c.current_term ∨
      (FloydPrimary.LaunchCheckLeader options_ peers now c).context.current_term =
        (c.current_term + 1) % UINT64_MOD := by
  unfold FloydPrimary.LaunchCheckLeader
  dsimp only
  split_ifs
  · exact Or.inl rfl
  · exact Or.inr rfl
  · exact Or.inl rfl
  · exact Or.inl rfl

/-- C12: `current_term` never decreases.  For every node state whose term is
below `2^64 - 1`, the term after `ReplyRequestVote`, after `ReplyAppendEntries`
and after the check-leader tick (with any options, peers and clock reading) is
at least the term before. -/
theorem current_term_never_decreases (s : FloydImpl) (rv : RequestVote) (store_ok : Bool)
    (ae : AppendEntries) (options_ : Options) (peers : List String) (now : Nat)
    (hwrap : s.context.current_term < UINT64_MOD - 1) :
    (s.ReplyRequestVote rv).1.context.current_term ≥ s.context.current_term ∧
    (s.ReplyAppendEntries store_ok ae).state.context.current_term ≥ s.context.current_term ∧
    (FloydPrimary.LaunchCheckLeader options_ peers now s.context).context.current_term ≥
      s.context.current_term ∧
    (s.LaunchCheckLeader peers now).context.current_term ≥ s.context.current_term := by
  have htick : ∀ (o : Options),
      (FloydPrimary.LaunchCheckLeader o peers now s.context).context.current_term ≥
        s.context.current_term := by
    intro o
    rcases LaunchCheckLeader_current_term o peers now s.context with h | h
    · rw [h]
    · rw [h]
      unfold UINT64_MOD at hwrap ⊢
      rw [Nat.mod_eq_of_lt (by omega)]
      omega
  refine ⟨ReplyRequestVote_current_term_ge s rv, ?_, htick options_, htick s.context.options⟩
  rw [ReplyAppendEntries_context]
  split_ifs
  · exact le_refl _
  · exact adoptAppendEntriesTerm_current_term_ge s ae

/-- C12 witness: the candidate of term 7 keeps or raises its term in each of
the three steps. -/
theorem current_term_never_decreases_witness :
    (sampleCandidate.ReplyRequestVote
      (sampleVote "127.0.0.2" 8902 9)).1.context.current_term ≥ 7 ∧
    (sampleCandidate.ReplyAppendEntries true
      (sampleAppend 3 0 0 0 [])).state.context.current_term ≥ 7 ∧
    (sampleCandidate.LaunchCheckLeader samplePeers 9000).context.current_term ≥ 7 :=
  have h := current_term_never_decreases sampleCandidate (sampleVote "127.0.0.2" 8902 9) true
    (sampleAppend 3 0 0 0 []) sampleOptions samplePeers 9000 (by decide)
  ⟨h.1, h.2.1, h.2.2.2⟩

/-! ## A candidate and AppendEntries -/

/-- C13 (counterexample): a candidate of term 2 with log `[entryA]` gets an
AppendEntries of term 2 with matching previous entry `(1, 1)`.  The request
term equals the current term, and after the call the node is still candidate
and still has no leader. -/
theorem candidate_stays_on_equal_term :
    sampleLoggedCandidate.context.role = Role.kCandidate ∧
    (sampleAppend 2 1 1 0 []).term ≥ sampleLoggedCandidate.context.current_term ∧
    (sampleLoggedCandidate.ReplyAppendEntries true
      (sampleAppend 2 1 1 0 [])).state.context.role = Role.kCandidate ∧
    ((sampleLoggedCandidate.ReplyAppendEntries true
        (sampleAppend 2 1 1 0 [])).state.context.leader_ip,
      (sampleLoggedCandidate.ReplyAppendEntries true
        (sampleAppend 2 1 1 0 [])).state.context.leader_port) ≠ ("127.0.0.2", 8902) ∧
    (sampleLoggedCandidate.ReplyAppendEntries true
      (sampleAppend 2 1 1 0 [])).state.context.HasLeader = false := by
  decide

/-- C13 (amended): for every node, a candidate in particular, and every
AppendEntries whose term is above the current term, after `ReplyAppendEntries`
the node is a follower of term `req.term` and its leader is
`(req.ip, req.port)`. -/
theorem candidate_steps_down_on_higher_term (store_ok : Bool) (s : FloydImpl)
    (ae : AppendEntries) (hterm : ae.term > s.context.current_term) :
    (s.ReplyAppendEntries store_ok ae).state.context.role = Role.kFollower ∧
    (s.ReplyAppendEntries store_ok ae).state.context.leader_ip = ae.ip ∧
    (s.ReplyAppendEntries store_ok ae).state.context.leader_port = ae.port ∧
    (s.ReplyAppendEntries store_ok ae).state.context.current_term = ae.term := by
  rw [ReplyAppendEntries_context, if_neg (by omega)]
  unfold FloydImpl.adoptAppendEntriesTerm
  rw [if_pos hterm]
  exact ⟨rfl, rfl, rfl, rfl⟩

/-- C13 (amended) witness: the candidate of term 2 gets an AppendEntries of
term 3 and becomes a follower of `127.0.0.2:8902`. -/
theorem candidate_steps_down_on_higher_term_witness :
    sampleLoggedCandidate.context.role = Role.kCandidate ∧
    (sampleLoggedCandidate.ReplyAppendEntries true
      (sampleAppend 3 1 1 0 [])).state.context.role = Role.kFollower ∧
    (sampleLoggedCandidate.ReplyAppendEntries true
      (sampleAppend 3 1 1 0 [])).state.context.leader_ip = "127.0.0.2" :=
  have h := candidate_steps_down_on_higher_term true sampleLoggedCandidate
    (sampleAppend 3 1 1 0 []) (by decide)
  ⟨by decide, h.1, h.2.1⟩

/-! ## Granted votes -/

/-- Assigning the same pair twice is assigning it once. -/
theorem VoteLedger.set_set (m : VoteLedger) (t : Nat) (v : String × Int) :
    (m.set t v).set t v = m.set t v := by
  induction m with
  | nil => simp [VoteLedger.set]
  | cons kv rest ih =>
    obtain ⟨k, x⟩ := kv
    by_cases hk : k = t
    · simp [VoteLedger.set, hk]
    · simp [VoteLedger.set, hk, ih]

/-- The granting branch of `ReplyRequestVote`, written out: what the handler
returns once none of its three denial tests fires. -/
theorem ReplyRequestVote_pass (s : FloydImpl) (r : RequestVote)
    (h1 : ¬ r.term < s.context.current_term)
    (h2 : ¬ (r.last_log_term < s.raft_log.GetLastLogTermAndIndex.1 ∨
      (r.last_log_term = s.raft_log.GetLastLogTermAndIndex.1 ∧
        r.last_log_index < s.raft_log.GetLastLogTermAndIndex.2)))
    (h3 : ¬ ((s.vote_for.find r.term).isSome = true ∧
      s.vote_for.find r.term ≠ some (r.ip, r.port))) :
    s.ReplyRequestVote r =
      ({ context := (s.context.BecomeFollower r.term "" 0).GrantVote r.term r.ip r.port
         raft_meta := ((s.raft_meta.SetCurrentTerm r.term).SetVotedForIp "").SetVotedForPort 0
         raft_log := s.raft_log
         vote_for := s.vote_for.set r.term (r.ip, r.port) },
        BuildRequestVoteResponse r.term true) := by
  unfold FloydImpl.ReplyRequestVote
  dsimp only
  rw [if_neg h1, if_neg h2, if_neg h3]
  rfl

/-- A granted request passed the three denial tests of the handler. -/
theorem ReplyRequestVote_granted_tests (s : FloydImpl) (r : RequestVote)
    (h : (s.ReplyRequestVote r).2.vote_granted = true) :
    ¬ r.term < s.context.current_term ∧
    ¬ (r.last_log_term < s.raft_log.GetLastLogTermAndIndex.1 ∨
      (r.last_log_term = s.raft_log.GetLastLogTermAndIndex.1 ∧
        r.last_log_index < s.raft_log.GetLastLogTermAndIndex.2)) ∧
    ¬ ((s.vote_for.find r.term).isSome = true ∧
      s.vote_for.find r.term ≠ some (r.ip, r.port)) := by
  unfold FloydImpl.ReplyRequestVote at h
  simp only [BuildRequestVoteResponse] at h
  split_ifs at h with h1 h2 h3
  exact ⟨h1, h2, h3⟩

/-- C14: re-granting is idempotent.  When a RequestVote is granted, the reply
is `(term = req.term, vote_granted = true)`, and handling the identical request
again on the resulting state (same log) returns the same reply and leaves the
whole node state, context, ledger and metadata store included, as the first
call left it. -/
theorem regrant_is_idempotent (s : FloydImpl) (r : RequestVote)
    (h : (s.ReplyRequestVote r).2.vote_granted = true) :
    (s.ReplyRequestVote r).2 = BuildRequestVoteResponse r.term true ∧
    (s.ReplyRequestVote r).1.raft_log = s.raft_log ∧
    (s.ReplyRequestVote r).1.ReplyRequestVote r =
      ((s.ReplyRequestVote r).1, BuildRequestVoteResponse r.term true) := by
  obtain ⟨h1, h2, h3⟩ := ReplyRequestVote_granted_tests s r h
  rw [ReplyRequestVote_pass s r h1 h2 h3]
  refine ⟨rfl, rfl, ?_⟩
  rw [ReplyRequestVote_pass]
  · simp only [VoteLedger.set_set]
    rfl
  · show ¬ r.term < r.term
    omega
  · exact h2
  · show ¬ (((s.vote_for.set r.term (r.ip, r.port)).find r.term).isSome = true ∧
      (s.vote_for.set r.term (r.ip, r.port)).find r.term ≠ some (r.ip, r.port))
    rw [VoteLedger.find_set]
    simp

/-- C14 witness: the sample follower of term 1 grants `127.0.0.2:8902` the
vote of term 7 twice, with the same reply and the same state. -/
theorem regrant_is_idempotent_witness :
    ((sampleNode 1 0 []).ReplyRequestVote (sampleVote "127.0.0.2" 8902 7)).2.vote_granted
      = true ∧
    ((sampleNode 1 0 []).ReplyRequestVote
      (sampleVote "127.0.0.2" 8902 7)).1.ReplyRequestVote (sampleVote "127.0.0.2" 8902 7) =
      (((sampleNode 1 0 []).ReplyRequestVote (sampleVote "127.0.0.2" 8902 7)).1,
        BuildRequestVoteResponse 7 true) :=
  ⟨by decide,
    (regrant_is_idempotent (sampleNode 1 0 []) (sampleVote "127.0.0.2" 8902 7)
      (by decide)).2.2⟩

/-- A granted vote leaves an empty vote in the metadata store: the handler
persists `voted_for` after `BecomeFollower` cleared it and before `GrantVote`
sets it. -/
theorem ReplyRequestVote_granted_meta (s : FloydImpl) (r : RequestVote)
    (h : (s.ReplyRequestVote r).2.vote_granted = true) :
    (s.ReplyRequestVote r).1.raft_meta.current_term = r.term ∧
    (s.ReplyRequestVote r).1.raft_meta.voted_for_ip = "" ∧
    (s.ReplyRequestVote r).1.raft_meta.voted_for_port = 0 ∧
    (s.ReplyRequestVote r).1.context.voted_for_ip = r.ip ∧
    (s.ReplyRequestVote r).1.context.voted_for_port = r.port := by
  obtain ⟨h1, h2, h3⟩ := ReplyRequestVote_granted_tests s r h
  rw [ReplyRequestVote_pass s r h1 h2 h3]
  exact ⟨rfl, rfl, rfl, rfl, rfl⟩

/-- C15 (evaluation at a failing input): the sample follower of term 1 grants
`127.0.0.2:8902` the vote of term 7.  On return the context holds the vote
and term 7, the metadata store holds term 7 but the empty vote `("", 0)`, and
`RecoverInit` on that store restores the empty vote. -/
theorem granted_vote_not_persisted :
    ((sampleNode 1 0 []).ReplyRequestVote (sampleVote "127.0.0.2" 8902 7)).2 =
      BuildRequestVoteResponse 7 true ∧
    (((sampleNode 1 0 []).ReplyRequestVote
        (sampleVote "127.0.0.2" 8902 7)).1.context.voted_for_ip,
      ((sampleNode 1 0 []).ReplyRequestVote
        (sampleVote "127.0.0.2" 8902 7)).1.context.voted_for_port) = ("127.0.0.2", 8902) ∧
    ((sampleNode 1 0 []).ReplyRequestVote
      (sampleVote "127.0.0.2" 8902 7)).1.raft_meta.current_term = 7 ∧
    (((sampleNode 1 0 []).ReplyRequestVote
        (sampleVote "127.0.0.2" 8902 7)).1.raft_meta.voted_for_ip,
      ((sampleNode 1 0 []).ReplyRequestVote
        (sampleVote "127.0.0.2" 8902 7)).1.raft_meta.voted_for_port) = ("", 0) ∧
    (((sampleContext 0 0).RecoverInit ((sampleNode 1 0 []).ReplyRequestVote
        (sampleVote "127.0.0.2" 8902 7)).1.raft_meta).voted_for_ip,
      ((sampleContext 0 0).RecoverInit ((sampleNode 1 0 []).ReplyRequestVote
        (sampleVote "127.0.0.2" 8902 7)).1.raft_meta).voted_for_port) = ("", 0) := by
  decide

/-! ## Rejected AppendEntries -/

/-- C17: the fast-rollback hint.  When the request term is not stale and the
previous index of the request lies beyond the last log index, the reply is
`success = false` with `last_log_index` equal to the last log index of the
follower (and the term of the node after the term check), and the log is
unchanged. -/
theorem append_entries_beyond_log_rejected (store_ok : Bool) (s : FloydImpl)
    (ae : AppendEntries) (hterm : ae.term ≥ s.context.current_term)
    (hprev : ae.prev_log_index > s.raft_log.GetLastLogIndex) :
    (s.ReplyAppendEntries store_ok ae).response =
      some (BuildAppendEntriesResponse false
        (s.ReplyAppendEntries store_ok ae).state.context.current_term
        s.raft_log.GetLastLogIndex) ∧
    (s.ReplyAppendEntries store_ok ae).state.raft_log = s.raft_log := by
  unfold FloydImpl.ReplyAppendEntries
  dsimp only
  rw [if_neg (by omega), if_pos hprev]
  exact ⟨rfl, adoptAppendEntriesTerm_raft_log s ae⟩

/-- C17 witness: a follower with log `[entryA]` gets an AppendEntries whose
previous entry is `(3, 2)`; it answers `success = false`, `last_log_index = 1`
and keeps its log. -/
theorem append_entries_beyond_log_rejected_witness :
    ((sampleNode 1 0 [entryA]).ReplyAppendEntries true
      (sampleAppend 2 3 2 0 [entryC])).response =
        some (BuildAppendEntriesResponse false 2 1) ∧
    ((sampleNode 1 0 [entryA]).ReplyAppendEntries true
      (sampleAppend 2 3 2 0 [entryC])).state.raft_log = [entryA] :=
  have h := append_entries_beyond_log_rejected true (sampleNode 1 0 [entryA])
    (sampleAppend 2 3 2 0 [entryC]) (by decide) (by decide)
  ⟨h.1.trans (by decide), h.2⟩

/-! ## The ticks of the primary thread -/

/-- The tasks `NoticePeerTask(kHeartBeat)` puts on the peer queues: one
RequestVote task for each peer. -/
theorem NoticePeerTask_kHeartBeat (peers : List String) :
    FloydPrimary.NoticePeerTask peers TaskType.kHeartBeat =
      peers.map (fun peer => (peer, PeerTask.RequestVoteTask)) := by
  unfold FloydPrimary.NoticePeerTask
  induction peers with
  | nil => rfl
  | cons p rest ih => simp [List.filterMap_cons, ih]

/-- The heartbeat tick of a leader: one RequestVote task for each peer, and
the heartbeat timer re-armed once. -/
theorem LaunchHeartBeat_leader (peers : List String) (c : FloydContext)
    (h : c.role = Role.kLeader) :
    (FloydPrimary.LaunchHeartBeat peers c).peer_tasks =
      peers.map (fun peer => (peer, PeerTask.RequestVoteTask)) ∧
    (FloydPrimary.LaunchHeartBeat peers c).added_tasks = [TaskType.kHeartBeat] := by
  unfold FloydPrimary.LaunchHeartBeat
  rw [if_pos h]
  exact ⟨NoticePeerTask_kHeartBeat peers, rfl⟩

/-- C18 (evaluation at a failing input): the sample node is leader of term 3
with peers `127.0.0.2:8902` and `127.0.0.3:8903`.  Its heartbeat tick re-arms
the heartbeat timer once and puts one task on each peer queue, but the task is
a RequestVote task, not an AppendEntries task. -/
theorem heartbeat_enqueues_request_vote :
    sampleLeaderContext.role = Role.kLeader ∧
    (FloydPrimary.LaunchHeartBeat samplePeers sampleLeaderContext).peer_tasks =
      [("127.0.0.2:8902", PeerTask.RequestVoteTask),
        ("127.0.0.3:8903", PeerTask.RequestVoteTask)] ∧
    (FloydPrimary.LaunchHeartBeat samplePeers sampleLeaderContext).peer_tasks ≠
      [("127.0.0.2:8902", PeerTask.AppendEntriesTask),
        ("127.0.0.3:8903", PeerTask.AppendEntriesTask)] ∧
    (FloydPrimary.LaunchHeartBeat samplePeers sampleLeaderContext).added_tasks =
      [TaskType.kHeartBeat] ∧
    (FloydPrimary.LaunchHeartBeat samplePeers sampleLeaderContext).context =
      sampleLeaderContext := by
  decide

/-- C19 (counterexample): two ticks on which the code leaves the claim.
First, with `check_leader_us = 2^64 - 1`, `last_op_time = 1000` and the clock at
2000, the elapsed time 1000 does not exceed the timeout, yet the deadline
`last_op_time + check_leader_us` wraps to 999 and the follower becomes
candidate.  Second, a follower of term `2^64 - 1` whose deadline has passed
becomes candidate of term 0, not of term `2^64`. -/
theorem check_leader_wraps :
    (sampleContextAt 1 1000).role = Role.kFollower ∧
    sampleOptionsMaxTimeout.single_mode = false ∧
    ¬ ((2000 : Int) - ((sampleContextAt 1 1000).last_op_time : Int) >
      (sampleOptionsMaxTimeout.check_leader_us : Int)) ∧
    (FloydPrimary.LaunchCheckLeader sampleOptionsMaxTimeout samplePeers 2000
      (sampleContextAt 1 1000)).context.role = Role.kCandidate ∧
    (FloydPrimary.LaunchCheckLeader sampleOptionsMaxTimeout samplePeers 2000
      (sampleContextAt 1 1000)).context ≠ sampleContextAt 1 1000 ∧
    ((5000 : Int) - ((sampleContextAt 18446744073709551615 0).last_op_time : Int) >
      (sampleOptions.check_leader_us : Int)) ∧
    (FloydPrimary.LaunchCheckLeader sampleOptions samplePeers 5000
      (sampleContextAt 18446744073709551615 0)).context.current_term = 0 ∧
    (FloydPrimary.LaunchCheckLeader sampleOptions samplePeers 5000
      (sampleContextAt 18446744073709551615 0)).context.current_term ≠
        (sampleContextAt 18446744073709551615 0).current_term + 1 := by
  decide

/-- C19 (amended): the check-leader tick, for every options, peer set, clock
reading and context.  The check-leader timer is re-armed exactly once in all
cases.  (i) A leader is left unchanged and no peer task is enqueued.  (ii) A
follower or candidate in single mode becomes leader with itself as leader, the
term unchanged, and no peer task is enqueued.  (iii) A follower or candidate
not in single mode whose deadline `last_op_time + check_leader_us`, a 64-bit
unsigned sum, is below the clock performs `BecomeCandidate` (term plus one
modulo `2^64`, vote for itself, `vote_quorum = 1`) and exactly one RequestVote
task is enqueued on every peer.  (iv) Otherwise nothing changes and no peer
task is enqueued.  When the sum does not wrap, the deadline test is
`now - last_op_time > check_leader_us`; when the term is below `2^64 - 1`, the
new term is the old one plus one. -/
theorem check_leader_tick (options_ : Options) (peers : List String) (now : Nat)
    (c : FloydContext) :
    (FloydPrimary.LaunchCheckLeader options_ peers now c).added_tasks =
      [TaskType.kCheckLeader] ∧
    (c.role = Role.kLeader →
      (FloydPrimary.LaunchCheckLeader options_ peers now c).context = c ∧
      (FloydPrimary.LaunchCheckLeader options_ peers now c).peer_tasks = []) ∧
    (c.role = Role.kFollower ∨ c.role = Role.kCandidate → options_.single_mode = true →
      (FloydPrimary.LaunchCheckLeader options_ peers now c).context = c.BecomeLeader ∧
      (FloydPrimary.LaunchCheckLeader options_ peers now c).context.role = Role.kLeader ∧
      (FloydPrimary.LaunchCheckLeader options_ peers now c).context.leader_ip =
        c.options.local_ip ∧
      (FloydPrimary.LaunchCheckLeader options_ peers now c).context.leader_port =
        c.options.local_port ∧
      (FloydPrimary.LaunchCheckLeader options_ peers now c).context.current_term =
        c.current_term ∧
      (FloydPrimary.LaunchCheckLeader options_ peers now c).peer_tasks = []) ∧
    (c.role = Role.kFollower ∨ c.role = Role.kCandidate → options_.single_mode = false →
      (c.last_op_time + options_.check_leader_us) % UINT64_MOD < now →
      (FloydPrimary.LaunchCheckLeader options_ peers now c).context = c.BecomeCandidate ∧
      (FloydPrimary.LaunchCheckLeader options_ peers now c).context.role = Role.kCandidate ∧
      (FloydPrimary.LaunchCheckLeader options_ peers now c).context.current_term =
        (c.current_term + 1) % UINT64_MOD ∧
      (FloydPrimary.LaunchCheckLeader options_ peers now c).context.voted_for_ip =
        c.options.local_ip ∧
      (FloydPrimary.LaunchCheckLeader options_ peers now c).context.voted_for_port =
        c.options.local_port ∧
      (FloydPrimary.LaunchCheckLeader options_ peers now c).context.vote_quorum = 1 ∧
      (FloydPrimary.LaunchCheckLeader options_ peers now c).peer_tasks =
        peers.map (fun peer => (peer, PeerTask.RequestVoteTask))) ∧
    (c.role = Role.kFollower ∨ c.role = Role.kCandidate → options_.single_mode = false →
      ¬ (c.last_op_time + options_.check_leader_us) % UINT64_MOD < now →
      (FloydPrimary.LaunchCheckLeader options_ peers now c).context = c ∧
      (FloydPrimary.LaunchCheckLeader options_ peers now c).peer_tasks = []) ∧
    (c.last_op_time + options_.check_leader_us < UINT64_MOD →
      ((c.last_op_time + options_.check_leader_us) % UINT64_MOD < now ↔
        (now : Int) - (c.last_op_time : Int) > (options_.check_leader_us : Int))) ∧
    (c.current_term < UINT64_MOD - 1 →
      c.BecomeCandidate.current_term = c.current_term + 1) := by
  refine ⟨rfl, ?_, ?_, ?_, ?_, ?_, ?_⟩
  · intro h
    unfold FloydPrimary.LaunchCheckLeader
    simp [h]
  · intro h hs
    unfold FloydPrimary.LaunchCheckLeader
    dsimp only
    rw [if_pos h, if_pos hs]
    exact ⟨rfl, rfl, rfl, rfl, rfl, rfl⟩
  · intro h hs hlate
    unfold FloydPrimary.LaunchCheckLeader
    dsimp only
    rw [if_pos h, if_neg (by simp [hs]), if_pos hlate]
    exact ⟨rfl, rfl, rfl, rfl, rfl, rfl, NoticePeerTask_kHeartBeat peers⟩
  · intro h hs hearly
    unfold FloydPrimary.LaunchCheckLeader
    dsimp only
    rw [if_pos h, if_neg (by simp [hs]), if_neg hearly]
    exact ⟨rfl, rfl⟩
  · intro hfit
    rw [Nat.mod_eq_of_lt hfit]
    omega
  · intro hterm
    show (c.current_term + 1) % UINT64_MOD = c.current_term + 1
    unfold UINT64_MOD at hterm ⊢
    exact Nat.mod_eq_of_lt (by omega)

/-- C19 (amended) witness: the sample follower of term 6, last active at time
0 with a timeout of 1000, ticks at time 5000: it becomes candidate of term 7
and one RequestVote task goes to each of its two peers. -/
theorem check_leader_tick_witness :
    (FloydPrimary.LaunchCheckLeader sampleOptions samplePeers 5000
      (sampleContext 6 0)).context.current_term = 7 ∧
    (FloydPrimary.LaunchCheckLeader sampleOptions samplePeers 5000
      (sampleContext 6 0)).peer_tasks =
        [("127.0.0.2:8902", PeerTask.RequestVoteTask),
          ("127.0.0.3:8903", PeerTask.RequestVoteTask)] :=
  have h := (check_leader_tick sampleOptions samplePeers 5000 (sampleContext 6 0)).2.2.2.1
    (Or.inl rfl) rfl (by decide)
  ⟨h.2.2.1.trans (by decide), h.2.2.2.2.2.2⟩

/-! ## Client commands without a leader -/

/-- `HasLeader` is false exactly when the leader address is not populated. -/
theorem HasLeader_eq_false_iff (c : FloydContext) :
    c.HasLeader = false ↔ (c.leader_ip = "" ∨ c.leader_port = 0) := by
  unfold FloydContext.HasLeader
  split_ifs with h
  · simp [h]
  · simp [h]

/-- C20: no leader means `Incomplete` with no effect.  For every node state
whose leader address is not populated (empty `leader_ip` or `leader_port = 0`),
every environment and every key and value, `Write`, `Delete` and `Read` each
return `Incomplete`, leave the node state (the log included) as it was, give
the primary thread no task and send no command to another node. -/
theorem no_leader_is_incomplete (env : ClientEnv) (s : FloydImpl) (key value : String)
    (h : s.context.leader_ip = "" ∨ s.context.leader_port = 0) :
    s.Write env key value = some (ClientResult.refused s Status.Incomplete) ∧
    s.Delete env key = some (ClientResult.refused s Status.Incomplete) ∧
    s.Read env key = some (ClientResult.refused s Status.Incomplete) ∧
    (ClientResult.refused s Status.Incomplete).status = Status.Incomplete ∧
    (ClientResult.refused s Status.Incomplete).state.raft_log = s.raft_log ∧
    (ClientResult.refused s Status.Incomplete).state = s ∧
    (ClientResult.refused s Status.Incomplete).added_tasks = [] ∧
    (ClientResult.refused s Status.Incomplete).rpcs = [] := by
  have hl : s.context.HasLeader = false := (HasLeader_eq_false_iff s.context).2 h
  refine ⟨?_, ?_, ?_, rfl, rfl, rfl, rfl, rfl⟩
  · unfold FloydImpl.Write
    rw [if_pos hl]
  · unfold FloydImpl.Delete
    rw [if_pos hl]
  · unfold FloydImpl.Read
    rw [if_pos hl]

/-- C20 witness: the sample follower knows no leader; its `Write` returns
`Incomplete` and its log stays empty. -/
theorem no_leader_is_incomplete_witness :
    (sampleNode 1 0 []).context.leader_ip = "" ∧
    ((sampleNode 1 0 []).Write sampleEnv "k" "v").map ClientResult.status =
      some Status.Incomplete ∧
    ((sampleNode 1 0 []).Write sampleEnv "k" "v").map (fun r => r.state.raft_log) =
      some [] :=
  have h := no_leader_is_incomplete sampleEnv (sampleNode 1 0 []) "k" "v" (Or.inl rfl)
  ⟨rfl, by rw [h.1]; rfl, by rw [h.1]; rfl⟩

/-! ## A failing log store write on the leader -/

/-- `ExecuteCommand` with a failing log store write: it returns `IOError` at
once, with the state and the response object as they were, no task for the
primary thread and nothing sent. -/
theorem ExecuteCommand_store_failure (env : ClientEnv) (s : FloydImpl) (request : CmdRequest)
    (response : CmdResponse) (hfail : env.store_ok = false) :
    s.ExecuteCommand env request response =
      some { status := Status.IOError, value := none, state := s, response := response,
             added_tasks := [], rpcs := [] } := by
  unfold FloydImpl.ExecuteCommand
  simp [RaftLog.Append, hfail]

/-- `DoCommand` on a node whose leader address is its own address is
`ExecuteCommand`. -/
theorem DoCommand_on_leader (env : ClientEnv) (s : FloydImpl) (cmd : CmdRequest)
    (response : CmdResponse) (hip : s.context.leader_ip = s.context.options.local_ip)
    (hport : s.context.leader_port = s.context.options.local_port) :
    s.DoCommand env cmd response = s.ExecuteCommand env cmd response := by
  unfold FloydImpl.DoCommand
  dsimp only
  rw [if_pos ⟨hip.symm, hport.symm⟩]

/-- C21 (counterexample): the sample node is leader of term 3 and the log
store write fails.  `Write`, `Delete` and `Read` each return `IOError`, not
`Corruption`. -/
theorem store_failure_is_not_corruption :
    sampleLeader.context.role = Role.kLeader ∧
    sampleEnvStoreFails.store_ok = false ∧
    (sampleLeader.Write sampleEnvStoreFails "k" "v").map ClientResult.status =
      some Status.IOError ∧
    (sampleLeader.Delete sampleEnvStoreFails "k").map ClientResult.status =
      some Status.IOError ∧
    (sampleLeader.Read sampleEnvStoreFails "k").map ClientResult.status =
      some Status.IOError ∧
    (sampleLeader.Write sampleEnvStoreFails "k" "v").map ClientResult.status ≠
      some Status.Corruption := by
  decide

/-- C21 (amended): a failing log store write surfaces as `IOError`.  For every
node whose leader address is populated and is its own address, every
environment in which the log store write fails and every key and value,
`Write`, `Delete` and `Read` each return `IOError`; the command is aborted: the
node state, the log included, is as before, no `kNewCommand` task is given to
the primary thread, nothing is sent, and the result does not depend on the
wake-ups of the apply wait, which is never entered. -/
theorem store_failure_is_io_error (env : ClientEnv) (s : FloydImpl) (key value : String)
    (hhas : s.context.HasLeader = true)
    (hip : s.context.leader_ip = s.context.options.local_ip)
    (hport : s.context.leader_port = s.context.options.local_port)
    (hfail : env.store_ok = false) :
    s.Write env key value = some (ClientResult.refused s Status.IOError) ∧
    s.Delete env key = some (ClientResult.refused s Status.IOError) ∧
    s.Read env key = some (ClientResult.refused s Status.IOError) ∧
    (ClientResult.refused s Status.IOError).status = Status.IOError ∧
    (ClientResult.refused s Status.IOError).state = s ∧
    (ClientResult.refused s Status.IOError).added_tasks = [] ∧
    (ClientResult.refused s Status.IOError).rpcs = [] := by
  have hne : ¬ (s.context.HasLeader = false) := by simp [hhas]
  refine ⟨?_, ?_, ?_, rfl, rfl, rfl, rfl⟩
  · unfold FloydImpl.Write
    dsimp only
    rw [if_neg hne, DoCommand_on_leader env s _ _ hip hport,
      ExecuteCommand_store_failure env s _ _ hfail]
    rfl
  · unfold FloydImpl.Delete
    dsimp only
    rw [if_neg hne, DoCommand_on_leader env s _ _ hip hport,
      ExecuteCommand_store_failure env s _ _ hfail]
    rfl
  · unfold FloydImpl.Read
    dsimp only
    rw [if_neg hne, DoCommand_on_leader env s _ _ hip hport,
      ExecuteCommand_store_failure env s _ _ hfail]
    rfl

/-- C21 (amended) witness: on the sample leader with a failing log store write
`Write` returns `IOError` and leaves the log `[entryA]`. -/
theorem store_failure_is_io_error_witness :
    (sampleLeader.Write sampleEnvStoreFails "k" "v").map ClientResult.status =
      some Status.IOError ∧
    (sampleLeader.Write sampleEnvStoreFails "k" "v").map (fun r => r.state.raft_log) =
      some [entryA] ∧
    (sampleLeader.Write sampleEnvStoreFails "k" "v").map ClientResult.added_tasks =
      some [] :=
  have h := store_failure_is_io_error sampleEnvStoreFails sampleLeader "k" "v"
    (by decide) (by decide) (by decide) rfl
  ⟨by rw [h.1]; rfl, by rw [h.1]; rfl, by rw [h.1]; rfl⟩

/-! ## Dirty writes and reads -/

/-- Reading the key-value store after an insertion under the same key. -/
theorem KvStore.lookup_insert (db : KvStore) (key value : String) :
    (db.insert key value).lookup key = some value := by
  induction db with
  | nil => simp [KvStore.insert, KvStore.lookup]
  | cons kv rest ih =>
    obtain ⟨k, v⟩ := kv
    by_cases hk : k = key
    · simp [KvStore.insert, KvStore.lookup, hk]
    · simp [KvStore.insert, KvStore.lookup, hk, ih]

/-- The sends of the `DirtyWrite` loop: the command goes once to each entry of
the member list that differs from the local address, in order, whatever the
sends return. -/
theorem sendDirtyWrites_rpcs (env : ClientEnv) (local_server : String) (cmd : CmdRequest)
    (members : List String) (response : CmdResponse) :
    (FloydImpl.sendDirtyWrites env local_server cmd members response).1 =
      (members.filter (fun iter => decide (iter ≠ local_server))).map
        (fun iter => (iter, cmd)) := by
  induction members generalizing response with
  | nil => rfl
  | cons iter rest ih =>
    unfold FloydImpl.sendDirtyWrites
    by_cases h : iter = local_server
    · simp [h, ih]
    · simp [h, ih]

/-- C22: `DirtyWrite` succeeds independently of the peers.  For every key and
value, every node (so every member list), every store content and every
environment (so every combination of send outcomes): the returned status is
`OK` exactly when the local `Put` succeeds.  When it succeeds, the local store
maps the key to the value and one request of type `kDirtyWrite` whose `kv` part
is `(key, value)` is sent to each entry of the member list other than the local
address, in the order of the list, and to nobody else; every request sent is
such a request.  When it fails, the status is `IOError`, the store is as it was
and nothing is sent. -/
theorem dirty_write_independent_of_peers (env : ClientEnv) (put_ok : Bool) (s : FloydImpl)
    (db : KvStore) (key value : String) :
    ((s.DirtyWrite env put_ok db key value).status = Status.OK ↔ put_ok = true) ∧
    (put_ok = true →
      (s.DirtyWrite env put_ok db key value).db.lookup key = some value ∧
      (s.DirtyWrite env put_ok db key value).db.Get true key = GetResult.found value ∧
      (s.DirtyWrite env put_ok db key value).rpcs =
        (s.context.options.members.filter (fun iter =>
          decide (iter ≠ IpPortString s.context.options.local_ip
            s.context.options.local_port))).map
          (fun iter =>
            (iter, ({ type := CmdType.kDirtyWrite, key := key, value := value } :
              CmdRequest))) ∧
      (∀ sent ∈ (s.DirtyWrite env put_ok db key value).rpcs,
        sent.2.type = CmdType.kDirtyWrite ∧ sent.2.key = key ∧ sent.2.value = value ∧
        sent.1 ∈ s.context.options.members ∧
        sent.1 ≠ IpPortString s.context.options.local_ip s.context.options.local_port) ∧
      (∀ member ∈ s.context.options.members,
        member ≠ IpPortString s.context.options.local_ip s.context.options.local_port →
        ((s.DirtyWrite env put_ok db key value).rpcs.map Prod.fst).count member =
          s.context.options.members.count member)) ∧
    (put_ok = false →
      (s.DirtyWrite env put_ok db key value).status = Status.IOError ∧
      (s.DirtyWrite env put_ok db key value).db = db ∧
      (s.DirtyWrite env put_ok db key value).rpcs = []) := by
  cases put_ok
  · refine ⟨by simp [FloydImpl.DirtyWrite, KvStore.Put], by simp, ?_⟩
    intro _
    simp [FloydImpl.DirtyWrite, KvStore.Put]
  · refine ⟨by simp [FloydImpl.DirtyWrite, KvStore.Put], ?_, by simp⟩
    intro _
    have hrpcs : (s.DirtyWrite env true db key value).rpcs =
        (s.context.options.members.filter (fun iter =>
          decide (iter ≠ IpPortString s.context.options.local_ip
            s.context.options.local_port))).map
          (fun iter =>
            (iter, ({ type := CmdType.kDirtyWrite, key := key, value := value } :
              CmdRequest))) := by
      simp only [FloydImpl.DirtyWrite, KvStore.Put, if_true, Bool.true_eq_false, if_false]
      exact sendDirtyWrites_rpcs _ _ _ _ _
    refine ⟨?_, ?_, hrpcs, ?_, ?_⟩
    · simp [FloydImpl.DirtyWrite, KvStore.Put, KvStore.lookup_insert]
    · simp [FloydImpl.DirtyWrite, KvStore.Put, KvStore.Get, KvStore.lookup_insert]
    · intro sent hsent
      rw [hrpcs] at hsent
      obtain ⟨iter, hiter, rfl⟩ := List.mem_map.mp hsent
      obtain ⟨hmem, hne⟩ := List.mem_filter.mp hiter
      exact ⟨rfl, rfl, rfl, hmem, by simpa using hne⟩
    · intro member _ hne
      rw [hrpcs, List.map_map]
      have hid : (Prod.fst ∘ fun iter : String =>
          (iter, ({ type := CmdType.kDirtyWrite, key := key, value := value } :
            CmdRequest))) = id := rfl
      rw [hid, List.map_id, List.count_filter]
      simpa using hne

/-- C22 witness: on the sample node `DirtyWrite("d", "1")` with a successful
`Put` returns `OK`, stores `d = 1` and sends the command to the two other
members. -/
theorem dirty_write_independent_of_peers_witness :
    ((sampleNode 1 0 []).DirtyWrite sampleEnv true [] "d" "1").status = Status.OK ∧
    ((sampleNode 1 0 []).DirtyWrite sampleEnv true [] "d" "1").db.lookup "d" = some "1" ∧
    ((sampleNode 1 0 []).DirtyWrite sampleEnv true [] "d" "1").rpcs =
      [("127.0.0.2:8902", CmdRequest.mk CmdType.kDirtyWrite "d" "1"),
        ("127.0.0.3:8903", CmdRequest.mk CmdType.kDirtyWrite "d" "1")] :=
  have h := dirty_write_independent_of_peers sampleEnv true (sampleNode 1 0 []) [] "d" "1"
  ⟨h.1.2 rfl, (h.2.1 rfl).1, (h.2.1 rfl).2.2.1.trans (by decide)⟩

/-- C24 (counterexample): `DirtyWrite("d", "1")` returns `OK` on the sample
node, and the lookup of the `DirtyRead("d")` that follows fails in the engine:
`DirtyRead` returns `Corruption` and no value.  The same happens for a key the
store does not hold. -/
theorem dirty_read_fails_with_engine :
    ((sampleNode 1 0 []).DirtyWrite sampleEnv true [] "d" "1").status = Status.OK ∧
    (FloydImpl.DirtyRead false
      ((sampleNode 1 0 []).DirtyWrite sampleEnv true [] "d" "1").db "d").status =
        Status.Corruption ∧
    (FloydImpl.DirtyRead false
      ((sampleNode 1 0 []).DirtyWrite sampleEnv true [] "d" "1").db "d").value = none ∧
    KvStore.lookup [] "missing" = none ∧
    (FloydImpl.DirtyRead false [] "missing").status = Status.Corruption := by
  decide

/-- C24 (amended): the dirty round trip on one node, for lookups the engine can
do.  If `DirtyWrite(k, v)` returns `OK`, a `DirtyRead(k)` on the store it left
returns `OK` with value `v`; and for every key the store does not hold,
`DirtyRead` returns `NotFound` and no value. -/
theorem dirty_round_trip (env : ClientEnv) (put_ok : Bool) (s : FloydImpl) (db : KvStore)
    (key value absent : String) :
    ((s.DirtyWrite env put_ok db key value).status = Status.OK →
      (FloydImpl.DirtyRead true (s.DirtyWrite env put_ok db key value).db key).status =
        Status.OK ∧
      (FloydImpl.DirtyRead true (s.DirtyWrite env put_ok db key value).db key).value =
        some value) ∧
    (db.lookup absent = none →
      (FloydImpl.DirtyRead true db absent).status = Status.NotFound ∧
      (FloydImpl.DirtyRead true db absent).value = none) := by
  refine ⟨?_, ?_⟩
  · intro hok
    cases put_ok
    · simp [FloydImpl.DirtyWrite, KvStore.Put] at hok
    · have hdb : (s.DirtyWrite env true db key value).db = db.insert key value := by
        simp [FloydImpl.DirtyWrite, KvStore.Put]
      rw [hdb]
      simp [FloydImpl.DirtyRead, KvStore.Get, KvStore.lookup_insert]
  · intro habsent
    simp [FloydImpl.DirtyRead, KvStore.Get, habsent]

/-- C24 (amended) witness: after `DirtyWrite("d", "1")` on the sample node,
`DirtyRead("d")` returns `OK` with `"1"`. -/
theorem dirty_round_trip_witness :
    (FloydImpl.DirtyRead true
      ((sampleNode 1 0 []).DirtyWrite sampleEnv true [] "d" "1").db "d").status =
        Status.OK ∧
    (FloydImpl.DirtyRead true
      ((sampleNode 1 0 []).DirtyWrite sampleEnv true [] "d" "1").db "d").value =
        some "1" :=
  (dirty_round_trip sampleEnv true (sampleNode 1 0 []) [] "d" "1" "missing").1 (by decide)

/-! ## `ExecuteCommand` on the leader -/

/-- The wait loop only ends normally once `last_applied` has reached the
index waited for. -/
theorem waitApplied_done (index : Nat) (wakeups : List (Bool × Nat)) (last_applied n : Nat)
    (h : waitApplied index last_applied wakeups = some (true, n)) : index ≤ n := by
  induction wakeups generalizing last_applied with
  | nil =>
    unfold waitApplied at h
    split_ifs at h with hlt
    cases h
    omega
  | cons w rest ih =>
    obtain ⟨signalled, seen⟩ := w
    unfold waitApplied at h
    split_ifs at h with hlt hs
    · exact ih seen h
    · cases h
    · cases h
      omega

/-- The wait loop ends, normally or by a timeout, as soon as the wake-ups hold
a timeout or a value of `last_applied` that has reached the index. -/
theorem waitApplied_returns (index : Nat) (wakeups : List (Bool × Nat)) (last_applied : Nat)
    (h : ∃ w ∈ wakeups, w.1 = false ∨ index ≤ w.2) :
    (waitApplied index last_applied wakeups).isSome = true := by
  induction wakeups generalizing last_applied with
  | nil =>
    obtain ⟨w, hw, -⟩ := h
    cases hw
  | cons w rest ih =>
    obtain ⟨signalled, seen⟩ := w
    unfold waitApplied
    split_ifs with hlt hs
    · obtain ⟨w, hw, hcond⟩ := h
      rcases List.mem_cons.mp hw with heq | hmem
      · subst heq
        rcases hcond with hf | hreach
        · simp only at hf
          rw [hs] at hf
          cases hf
        · simp only at hreach
          cases rest with
          | nil =>
            unfold waitApplied
            rw [if_neg (by omega)]
            rfl
          | cons w2 rest2 =>
            obtain ⟨s2, n2⟩ := w2
            unfold waitApplied
            rw [if_neg (by omega)]
            rfl
      · exact ih seen ⟨w, hmem, hcond⟩
    · rfl
    · rfl

/-- The entry `BuildLogEntry` makes for a read, write or delete command. -/
theorem BuildLogEntry_fields (cmd : CmdRequest) (current_term : Nat) :
    (BuildLogEntry cmd current_term).term = current_term ∧
    (BuildLogEntry cmd current_term).key = cmd.key ∧
    (BuildLogEntry cmd current_term).value = cmd.value ∧
    (cmd.type = CmdType.kRead → (BuildLogEntry cmd current_term).optype = OpType.kRead) ∧
    (cmd.type = CmdType.kWrite → (BuildLogEntry cmd current_term).optype = OpType.kWrite) ∧
    (cmd.type = CmdType.kDelete →
      (BuildLogEntry cmd current_term).optype = OpType.kDelete) := by
  refine ⟨rfl, rfl, rfl, ?_, ?_, ?_⟩ <;> intro h <;> simp [BuildLogEntry, h]

/-- What `ExecuteCommand` returns when the log store write succeeds and the
command is a read, a write or a delete: the log has grown by the entry of the
command, the status is `OK` or `Timeout`, and `OK` comes with a `last_applied`
that has reached the index of the entry. -/
theorem ExecuteCommand_stored (env : ClientEnv) (s : FloydImpl) (request : CmdRequest)
    (response : CmdResponse) (r : ClientResult) (hok : env.store_ok = true)
    (htype : request.type = CmdType.kRead ∨ request.type = CmdType.kWrite ∨
      request.type = CmdType.kDelete)
    (hr : s.ExecuteCommand env request response = some r) :
    r.state.raft_log = s.raft_log ++ [BuildLogEntry request s.context.current_term] ∧
    (r.status = Status.OK ∨ r.status = Status.Timeout) ∧
    (r.status = Status.OK → s.raft_log.length + 1 ≤ r.state.context.last_applied) ∧
    r.added_tasks = [TaskType.kNewCommand] := by
  unfold FloydImpl.ExecuteCommand at hr
  simp only [RaftLog.Append, hok, if_true] at hr
  have hpos : ¬ ((s.raft_log ++ [BuildLogEntry request s.context.current_term]).length ≤ 0) := by
    rw [List.length_append]; simp
  rw [if_neg hpos] at hr
  cases hw : waitApplied (s.raft_log ++ [BuildLogEntry request s.context.current_term]).length
      s.context.last_applied env.wakeups with
  | none =>
    rw [hw] at hr
    cases hr
  | some res =>
    obtain ⟨done, seen⟩ := res
    rw [hw] at hr
    have hlen : (s.raft_log ++ [BuildLogEntry request s.context.current_term]).length =
        s.raft_log.length + 1 := by
      rw [List.length_append]; rfl
    cases done
    · simp only [Option.some.injEq] at hr
      subst hr
      refine ⟨rfl, Or.inr rfl, ?_, rfl⟩
      intro h
      cases h
    · have hseen := waitApplied_done _ _ _ _ hw
      rw [hlen] at hseen
      rcases htype with ht | ht | ht
      · simp only [ht, Option.some.injEq] at hr
        subst hr
        exact ⟨rfl, Or.inl rfl, fun _ => hseen, rfl⟩
      · simp only [ht, Option.some.injEq] at hr
        subst hr
        exact ⟨rfl, Or.inl rfl, fun _ => hseen, rfl⟩
      · simp only [ht, Option.some.injEq] at hr
        subst hr
        exact ⟨rfl, Or.inl rfl, fun _ => hseen, rfl⟩

/-- `ExecuteCommand` returns when the log store write succeeds and the wake-ups
hold a timeout or a value of `last_applied` that has reached the index of the
new entry. -/
theorem ExecuteCommand_returns (env : ClientEnv) (s : FloydImpl) (request : CmdRequest)
    (response : CmdResponse) (hok : env.store_ok = true)
    (h : ∃ w ∈ env.wakeups, w.1 = false ∨ s.raft_log.length + 1 ≤ w.2) :
    (s.ExecuteCommand env request response).isSome = true := by
  have hlen : (s.raft_log ++ [BuildLogEntry request s.context.current_term]).length =
      s.raft_log.length + 1 := by
    rw [List.length_append]; rfl
  have hsome := waitApplied_returns (s.raft_log.length + 1) env.wakeups
    s.context.last_applied h
  unfold FloydImpl.ExecuteCommand
  simp only [RaftLog.Append, hok, if_true]
  rw [if_neg (by rw [hlen]; omega), hlen]
  cases hw : waitApplied (s.raft_log.length + 1) s.context.last_applied env.wakeups with
  | none =>
    rw [hw] at hsome
    cases hsome
  | some res =>
    obtain ⟨done, seen⟩ := res
    cases done
    · rfl
    · dsimp only
      split <;> rfl

/-- The entry appended at the end of a log is found at the new last index. -/
theorem GetEntry_appended (log : RaftLog) (e : Entry) :
    RaftLog.GetEntry (log ++ [e]) (log.length + 1) = some e := by
  unfold RaftLog.GetEntry
  simp

/-- C23: `ExecuteCommand` appends exactly one entry and never rolls it back.
Take any node state, a read, write or delete command and an environment in
which the log store write succeeds.  Whenever `ExecuteCommand` returns, the
status is `OK` or `Timeout` and the log is the log before followed by one
entry, which has the current term, the key and value of the command and the
operation of its type; `OK` is only returned with `last_applied` at or beyond
the index of that entry; with `Timeout` the entry is still in the log at that
index.  And `ExecuteCommand` does return once the wake-ups of the apply wait
hold a timeout or a `last_applied` that has reached the index. -/
theorem execute_command_appends_one_entry (env : ClientEnv) (s : FloydImpl)
    (request : CmdRequest) (response : CmdResponse) (hok : env.store_ok = true)
    (htype : request.type = CmdType.kRead ∨ request.type = CmdType.kWrite ∨
      request.type = CmdType.kDelete) :
    (∀ r, s.ExecuteCommand env request response = some r →
      (r.status = Status.OK ∨ r.status = Status.Timeout) ∧
      r.state.raft_log = s.raft_log ++ [BuildLogEntry request s.context.current_term] ∧
      (r.status = Status.OK → s.raft_log.length + 1 ≤ r.state.context.last_applied) ∧
      (r.status = Status.Timeout →
        r.state.raft_log.GetEntry (s.raft_log.length + 1) =
          some (BuildLogEntry request s.context.current_term))) ∧
    ((BuildLogEntry request s.context.current_term).term = s.context.current_term ∧
      (BuildLogEntry request s.context.current_term).key = request.key ∧
      (BuildLogEntry request s.context.current_term).value = request.value ∧
      (request.type = CmdType.kRead →
        (BuildLogEntry request s.context.current_term).optype = OpType.kRead) ∧
      (request.type = CmdType.kWrite →
        (BuildLogEntry request s.context.current_term).optype = OpType.kWrite) ∧
      (request.type = CmdType.kDelete →
        (BuildLogEntry request s.context.current_term).optype = OpType.kDelete)) ∧
    ((∃ w ∈ env.wakeups, w.1 = false ∨ s.raft_log.length + 1 ≤ w.2) →
      (s.ExecuteCommand env request response).isSome = true) := by
  refine ⟨?_, BuildLogEntry_fields request s.context.current_term,
    ExecuteCommand_returns env s request response hok⟩
  intro r hr
  obtain ⟨hlog, hstatus, happlied, -⟩ := ExecuteCommand_stored env s request response r hok
    htype hr
  refine ⟨hstatus, hlog, happlied, ?_⟩
  intro _
  rw [hlog]
  exact GetEntry_appended _ _

/-- C23 witness: on the sample leader with log `[entryA]`, a write whose apply
wait times out returns `Timeout` with the new entry at index 2, and a write
whose wait sees `last_applied = 2` returns `OK`. -/
theorem execute_command_appends_one_entry_witness :
    (sampleLeader.ExecuteCommand (sampleEnvWakeups [(true, 1), (false, 1)])
      (BuildWriteRequest "k" "v") CmdResponse.empty).map ClientResult.status =
        some Status.Timeout ∧
    (sampleLeader.ExecuteCommand (sampleEnvWakeups [(true, 1), (false, 1)])
      (BuildWriteRequest "k" "v") CmdResponse.empty).map
        (fun r => r.state.raft_log.GetEntry 2) =
          some (some (BuildLogEntry (BuildWriteRequest "k" "v") 3)) ∧
    (sampleLeader.ExecuteCommand (sampleEnvWakeups [(true, 1), (true, 2)])
      (BuildWriteRequest "k" "v") CmdResponse.empty).map ClientResult.status =
        some Status.OK ∧
    (sampleLeader.ExecuteCommand (sampleEnvWakeups [(true, 1), (false, 1)])
      (BuildWriteRequest "k" "v") CmdResponse.empty).isSome = true :=
  have h := execute_command_appends_one_entry (sampleEnvWakeups [(true, 1), (false, 1)])
    sampleLeader (BuildWriteRequest "k" "v") CmdResponse.empty rfl (Or.inr (Or.inl rfl))
  ⟨by decide, by decide, by decide, h.2.2 ⟨(false, 1), by decide, Or.inl rfl⟩⟩

/-! ## `BecomeCandidate` -/

/-- C25: `BecomeCandidate` does exactly what is listed.  For every context,
afterwards the term is the old term plus one modulo `2^64`, the role is
candidate, the leader address is cleared so that `HasLeader` is false, the vote
is on `(local_ip, local_port)`, `vote_quorum` is 1, and `commit_index` and
`last_applied` (and the options and `last_op_time`) are unchanged. -/
theorem become_candidate_effect (c : FloydContext) :
    c.BecomeCandidate.current_term = (c.current_term + 1) % 2 ^ 64 ∧
    c.BecomeCandidate.role = Role.kCandidate ∧
    c.BecomeCandidate.leader_ip = "" ∧
    c.BecomeCandidate.leader_port = 0 ∧
    c.BecomeCandidate.HasLeader = false ∧
    c.BecomeCandidate.voted_for_ip = c.options.local_ip ∧
    c.BecomeCandidate.voted_for_port = c.options.local_port ∧
    c.BecomeCandidate.vote_quorum = 1 ∧
    c.BecomeCandidate.commit_index = c.commit_index ∧
    c.BecomeCandidate.last_applied = c.last_applied ∧
    c.BecomeCandidate.options = c.options ∧
    c.BecomeCandidate.last_op_time = c.last_op_time := by
  refine ⟨?_, rfl, rfl, rfl, ?_, rfl, rfl, rfl, rfl, rfl, rfl, rfl⟩
  · show (c.current_term + 1) % UINT64_MOD = (c.current_term + 1) % 2 ^ 64
    unfold UINT64_MOD
    norm_num
  · simp [FloydContext.HasLeader, FloydContext.BecomeCandidate]

/-! ## Role, leader and vote stay consistent -/

/-- A follower context is consistent. -/
theorem roleConsistent_of_follower (c : FloydContext) (h : c.role = Role.kFollower) :
    c.roleConsistent := by
  unfold FloydContext.roleConsistent
  rw [h]
  exact ⟨(fun e => nomatch e), (fun e => nomatch e)⟩

/-- The context after `ReplyRequestVote` is the old one or a follower. -/
theorem ReplyRequestVote_context (s : FloydImpl) (r : RequestVote) :
    (s.ReplyRequestVote r).1.context = s.context ∨
      (s.ReplyRequestVote r).1.context.role = Role.kFollower := by
  unfold FloydImpl.ReplyRequestVote
  simp only [BuildRequestVoteResponse]
  split_ifs
  · exact Or.inl rfl
  · exact Or.inl rfl
  · exact Or.inl rfl
  · exact Or.inr rfl

/-- The context after the term check of `ReplyAppendEntries` is the old one or
a follower. -/
theorem adoptAppendEntriesTerm_context (s : FloydImpl) (ae : AppendEntries) :
    (s.adoptAppendEntriesTerm ae).context = s.context ∨
      (s.adoptAppendEntriesTerm ae).context.role = Role.kFollower := by
  unfold FloydImpl.adoptAppendEntriesTerm
  split_ifs
  · exact Or.inr rfl
  · exact Or.inl rfl

/-- Every step keeps the context consistent and the options as they are. -/
theorem step_roleConsistent (s : FloydImpl) (st : NodeStep) (h : s.context.roleConsistent) :
    (s.step st).context.roleConsistent ∧ (s.step st).context.options = s.context.options := by
  cases st with
  | replyRequestVote r =>
    show (s.ReplyRequestVote r).1.context.roleConsistent ∧
      (s.ReplyRequestVote r).1.context.options = s.context.options
    have hopt : (s.ReplyRequestVote r).1.context.options = s.context.options := by
      unfold FloydImpl.ReplyRequestVote
      simp only [BuildRequestVoteResponse]
      split_ifs <;> rfl
    rcases ReplyRequestVote_context s r with hc | hc
    · rw [hc]; exact ⟨h, rfl⟩
    · exact ⟨roleConsistent_of_follower _ hc, hopt⟩
  | replyAppendEntries store_ok ae =>
    show (s.ReplyAppendEntries store_ok ae).state.context.roleConsistent ∧
      (s.ReplyAppendEntries store_ok ae).state.context.options = s.context.options
    have hopt : (s.adoptAppendEntriesTerm ae).context.options = s.context.options := by
      unfold FloydImpl.adoptAppendEntriesTerm
      split_ifs <;> rfl
    rw [ReplyAppendEntries_context]
    split_ifs
    · exact ⟨h, rfl⟩
    · rcases adoptAppendEntriesTerm_context s ae with hc | hc
      · rw [hc]; exact ⟨h, rfl⟩
      · exact ⟨roleConsistent_of_follower _ hc, hopt⟩
  | launchCheckLeader options_ peers now =>
    show (FloydPrimary.LaunchCheckLeader options_ peers now s.context).context.roleConsistent ∧
      (FloydPrimary.LaunchCheckLeader options_ peers now s.context).context.options =
        s.context.options
    unfold FloydPrimary.LaunchCheckLeader
    dsimp only
    split_ifs
    · exact ⟨⟨fun _ => ⟨rfl, rfl⟩, fun e => nomatch e⟩, rfl⟩
    · exact ⟨⟨(fun e => nomatch e), fun _ => ⟨rfl, rfl, rfl, rfl⟩⟩, rfl⟩
    · exact ⟨h, rfl⟩
    · exact ⟨h, rfl⟩
  | becomeLeader =>
    exact ⟨⟨fun _ => ⟨rfl, rfl⟩, fun e => nomatch e⟩, rfl⟩

/-- Every sequence of steps keeps the context consistent and the options as
they are. -/
theorem run_roleConsistent (steps : List NodeStep) (s : FloydImpl)
    (h : s.context.roleConsistent) :
    (s.run steps).context.roleConsistent ∧ (s.run steps).context.options = s.context.options := by
  induction steps generalizing s with
  | nil => exact ⟨h, rfl⟩
  | cons st rest ih =>
    have hstep := step_roleConsistent s st h
    have hrest := ih (s.step st) hstep.1
    exact ⟨hrest.1, hrest.2.trans hstep.2⟩

/-- C26: role and leader stay consistent.  Start from any context as
`RecoverInit` leaves it, with any metadata store and log, and take any
sequence of `ReplyRequestVote`, `ReplyAppendEntries`, check-leader and
`BecomeLeader` steps.  In the state reached, the local address is the one the
node started with; if the role is leader, the leader is
`(local_ip, local_port)`; if the role is candidate, the vote is on
`(local_ip, local_port)` and the leader address is cleared. -/
theorem role_leader_consistency (c : FloydContext) (raft_meta : RaftMeta) (raft_log : RaftLog)
    (steps : List NodeStep) :
    ((FloydImpl.init c raft_meta raft_log).run steps).context.options = c.options ∧
    (((FloydImpl.init c raft_meta raft_log).run steps).context.role = Role.kLeader →
      ((FloydImpl.init c raft_meta raft_log).run steps).context.leader_ip =
        c.options.local_ip ∧
      ((FloydImpl.init c raft_meta raft_log).run steps).context.leader_port =
        c.options.local_port) ∧
    (((FloydImpl.init c raft_meta raft_log).run steps).context.role = Role.kCandidate →
      ((FloydImpl.init c raft_meta raft_log).run steps).context.voted_for_ip =
        c.options.local_ip ∧
      ((FloydImpl.init c raft_meta raft_log).run steps).context.voted_for_port =
        c.options.local_port ∧
      ((FloydImpl.init c raft_meta raft_log).run steps).context.leader_ip = "" ∧
      ((FloydImpl.init c raft_meta raft_log).run steps).context.leader_port = 0) := by
  have h0 : (FloydImpl.init c raft_meta raft_log).context.roleConsistent :=
    roleConsistent_of_follower _ rfl
  obtain ⟨hinv, hopt⟩ := run_roleConsistent steps _ h0
  have hopt' : ((FloydImpl.init c raft_meta raft_log).run steps).context.options = c.options :=
    hopt
  unfold FloydContext.roleConsistent at hinv
  rw [hopt'] at hinv
  exact ⟨hopt', hinv.1, hinv.2⟩

/-- C26 witness: the sample node recovers, times out into a candidate, denies
a stale AppendEntries and becomes leader; it ends as leader with its own
address as leader address. -/
theorem role_leader_consistency_witness :
    ((FloydImpl.init (sampleContext 0 0) ((sampleNode 6 0 []).raft_meta) []).run
      [NodeStep.launchCheckLeader sampleOptions samplePeers 5000,
        NodeStep.replyAppendEntries true (sampleAppend 3 0 0 0 []),
        NodeStep.becomeLeader]).context.role = Role.kLeader ∧
    ((FloydImpl.init (sampleContext 0 0) ((sampleNode 6 0 []).raft_meta) []).run
      [NodeStep.launchCheckLeader sampleOptions samplePeers 5000,
        NodeStep.replyAppendEntries true (sampleAppend 3 0 0 0 []),
        NodeStep.becomeLeader]).context.leader_ip = "127.0.0.1" :=
  ⟨by decide,
    ((role_leader_consistency (sampleContext 0 0) ((sampleNode 6 0 []).raft_meta) []
      [NodeStep.launchCheckLeader sampleOptions samplePeers 5000,
        NodeStep.replyAppendEntries true (sampleAppend 3 0 0 0 []),
        NodeStep.becomeLeader]).2.1 (by decide)).1⟩

/-! ## Denied votes -/

/-- C27: a denied vote changes nothing.  For every node state and every
RequestVote answered `vote_granted = false`, the node state after the call is
the state before it, so the context (term, role, leader, vote), the vote
ledger, the log and the metadata store are unchanged, and the reply term is the
current term of the node. -/
theorem denied_vote_changes_nothing (s : FloydImpl) (r : RequestVote)
    (h : (s.ReplyRequestVote r).2.vote_granted = false) :
    (s.ReplyRequestVote r).1 = s ∧
    (s.ReplyRequestVote r).1.context = s.context ∧
    (s.ReplyRequestVote r).1.vote_for = s.vote_for ∧
    (s.ReplyRequestVote r).1.raft_log = s.raft_log ∧
    (s.ReplyRequestVote r).1.raft_meta = s.raft_meta ∧
    (s.ReplyRequestVote r).2.term = s.context.current_term := by
  obtain ⟨hs, ht⟩ := ReplyRequestVote_denied s r h
  refine ⟨hs, ?_, ?_, ?_, ?_, ht⟩ <;> rw [hs]

/-- C27 witness: the candidate of term 7 denies a RequestVote of term 3; it
stays as it was and answers with term 7. -/
theorem denied_vote_changes_nothing_witness :
    (sampleCandidate.ReplyRequestVote (sampleVote "127.0.0.2" 8902 3)).2.vote_granted
      = false ∧
    (sampleCandidate.ReplyRequestVote (sampleVote "127.0.0.2" 8902 3)).1 = sampleCandidate ∧
    (sampleCandidate.ReplyRequestVote (sampleVote "127.0.0.2" 8902 3)).2.term = 7 :=
  have h := denied_vote_changes_nothing sampleCandidate (sampleVote "127.0.0.2" 8902 3)
    (by decide)
  ⟨by decide, h.1, h.2.2.2.2.2.trans (by decide)⟩

end Floyd
